import Mathlib

/-!
# MODR request-capture pipeline: a shallow embedding

This file embeds the core of the MODR HTTP request-monitoring system in
Lean 4 and settles the frozen claims about it.

The source files embedded here:
* `src/middlewares/MonitoringMiddleware.js` (class `ModrMiddleware`):
  capture decision, header sanitization, body preparation, response-finish
  handler building the normalized record and invoking the controller.
* `src/backend/src/controllers/request/CaptureController.js`
  (class `CaptureController`): the `(req, res)` HTTP controller wrapper.
* `src/backend/src/services/request/CaptureService.js`
  (class `RequestCaptureService`): validation, sanitization, the capture
  transaction (`executeCapture`), lookup-or-create helpers, header join
  processing, exception capture and event emission.
* `src/backend/src/utils/ValidationUtils.js` (partially present in the
  repository): UUID / HTTP-method / status-code validators.
* `database/sql/raw/raw_create_tables.sql`: the relational schema
  (unique natural keys on methods/status/headers, composite primary key on
  `request_headers`).

Modelling conventions:
* JavaScript strings are modelled as `List Char` (`JStr`).  JS `.length`
  counts UTF-16 code units and Lean counts code points; these coincide on
  the basic multilingual plane, which is the domain of every string this
  development evaluates.  `Buffer.byteLength(s, 'utf8')` is `utf8Len`.
* JS numbers are modelled as `ℚ`.  Floating-point rounding is not
  modelled; the comparisons and `Math.round` used by the code are exact on
  the rationals exercised here.
* Untyped JS values are `JsVal`; property access on `undefined`/`null`
  throws (`jsGetE`), property access on other values is total (`getField`).
* The database is an in-memory record of tables (`DB`); `SERIAL` ids are
  assigned from table lengths, UUID primary keys are taken from inputs or
  from explicit generator parameters.  `Date.now()` / `new Date()` are
  explicit parameters.
* Database faults are injected through an oracle `Nat → Bool` consulted
  once per primitive database operation, so that transactional rollback
  can be stated for an arbitrary failing step.
-/

namespace Modr

/-- JavaScript strings, modelled as lists of characters. -/
abbrev JStr := List Char

/-- Model of `Buffer.byteLength(s, 'utf8')`: the UTF-8 byte length of a string. -/
def utf8Len (s : JStr) : Nat := (s.map (fun c => c.utf8Size)).sum

/-- Untyped JavaScript values (the fragment used by the capture pipeline). -/
inductive JsVal where
  | undefV : JsVal
  | nullV : JsVal
  | boolV : Bool → JsVal
  | num : ℚ → JsVal
  | str : JStr → JsVal
  | obj : List (String × JsVal) → JsVal
  | arr : List JsVal → JsVal
deriving Repr

namespace JsVal

/-- JS truthiness: `undefined`, `null`, `false`, `0`, `''` are falsy. -/
def truthy : JsVal → Bool
  | .undefV => false
  | .nullV => false
  | .boolV b => b
  | .num q => q ≠ 0
  | .str s => s ≠ []
  | .obj _ => true
  | .arr _ => true

/-- JS `a || b`. -/
def jsOr (a b : JsVal) : JsVal := if a.truthy then a else b

/-- JS `typeof v === 'string'`. -/
def isStr : JsVal → Bool
  | .str _ => true
  | _ => false

/-- JS `typeof v === 'number'`. -/
def isNum : JsVal → Bool
  | .num _ => true
  | _ => false

/-- JS `typeof v === 'object'` (true for `null`, objects and arrays). -/
def typeofObject : JsVal → Bool
  | .nullV => true
  | .obj _ => true
  | .arr _ => true
  | _ => false

/-- Non-throwing property read.  Objects use first-binding lookup (JS
objects cannot carry duplicate keys); strings expose `length`; every other
read yields `undefined`.  Reads on `undefined`/`null` are handled by
`jsGetE`, never by this function. -/
def getField : JsVal → String → JsVal
  | .obj fs, k => match fs.find? (fun kv => kv.1 = k) with
    | some kv => kv.2
    | none => .undefV
  | .str s, k => if k = "length" then .num s.length else .undefV
  | .arr xs, k => if k = "length" then .num xs.length else .undefV
  | _, _ => .undefV

/-- Model of `Object.keys(v).length`: field count for objects, character count for
strings, element count for arrays, `0` otherwise. -/
def objectKeysLength : JsVal → Nat
  | .obj fs => fs.length
  | .str s => s.length
  | .arr xs => xs.length
  | _ => 0

end JsVal

/-- A thrown JavaScript error. -/
inductive JsErr where
  | typeError : JsErr
deriving DecidableEq, Repr

/-- Property read that throws `TypeError` when the base is
`undefined`/`null`, as JS member access does. -/
def jsGetE (v : JsVal) (k : String) : Except JsErr JsVal :=
  match v with
  | .undefV => .error .typeError
  | .nullV => .error .typeError
  | _ => .ok (v.getField k)

/-! ## JSON serialization (`JSON.stringify`) -/

/-- Lower-case hexadecimal digit. -/
def hexDigit (n : Nat) : Char :=
  if n < 10 then Char.ofNat (48 + n) else Char.ofNat (87 + n)

/-- JSON string escaping of one character, as `JSON.stringify` performs it:
quote and backslash are backslash-escaped, the named control characters get
their short escapes, other control characters become `\u00XX`. -/
def escChar (c : Char) : JStr :=
  if c = '"' then ['\\', '"']
  else if c = '\\' then ['\\', '\\']
  else if c = '\x08' then ['\\', 'b']
  else if c = '\x0c' then ['\\', 'f']
  else if c = '\n' then ['\\', 'n']
  else if c = '\r' then ['\\', 'r']
  else if c = '\t' then ['\\', 't']
  else if c.toNat < 32 then
    ['\\', 'u', '0', '0', hexDigit (c.toNat / 16), hexDigit (c.toNat % 16)]
  else [c]

/-- Model of `JSON.stringify` of a string: quoted, with characters escaped. -/
def stringifyStr (s : JStr) : JStr :=
  '"' :: (s.map escChar).flatten ++ ['"']

/-- Decimal digits of a natural number, most significant first. -/
def natDigits (n : Nat) : JStr :=
  if n < 10 then [Char.ofNat (48 + n)]
  else natDigits (n / 10) ++ [Char.ofNat (48 + n % 10)]
decreasing_by exact Nat.div_lt_self (by omega) (by omega)

/-- Decimal rendering of an integer. -/
def intRender (i : Int) : JStr :=
  if i < 0 then '-' :: natDigits i.natAbs else natDigits i.natAbs

/-- Decimal rendering of a rational.  JS renders numbers in decimal
notation; integral values (the only numbers serialized in this
development's evaluations) agree with JS, and for non-integral values only
the length of the rendering is ever relevant. -/
def ratRender (q : ℚ) : JStr :=
  if q.den = 1 then intRender q.num
  else intRender q.num ++ '/' :: natDigits q.den

/-- Is the value `undefined`?  (`JSON.stringify` omits object fields whose
value is `undefined`.) -/
def JsVal.isUndefV : JsVal → Bool
  | .undefV => true
  | _ => false

mutual

/-- Model of `JSON.stringify`.  Object fields with `undefined` values are omitted;
a top-level `undefined` has no JSON form (JS returns the non-string
`undefined` there), rendered here as the text `undefined` — every caller
in the embedded code tests falsiness before serializing, so that branch is
unreachable. -/
def stringify : JsVal → JStr
  | .undefV => "undefined".data
  | .nullV => "null".data
  | .boolV true => "true".data
  | .boolV false => "false".data
  | .num q => ratRender q
  | .str s => stringifyStr s
  | .obj fs => '\x7b' :: List.intercalate [','] (stringifyFields fs) ++ ['\x7d']
  | .arr xs => '[' :: List.intercalate [','] (stringifyElems xs) ++ [']']

/-- The rendered `"key":value` pieces of an object, skipping
`undefined`-valued fields. -/
def stringifyFields : List (String × JsVal) → List JStr
  | [] => []
  | (k, v) :: rest =>
      if v.isUndefV then stringifyFields rest
      else (stringifyStr k.data ++ ':' :: stringify v) :: stringifyFields rest

/-- The rendered elements of an array (`undefined` elements serialize as
`null`). -/
def stringifyElems : List JsVal → List JStr
  | [] => []
  | v :: rest =>
      (if v.isUndefV then "null".data else stringify v) :: stringifyElems rest

end

/-! ## JSON parsing (`JSON.parse`)

A recursive-descent parser for the JSON grammar, fuelled by the input
length.  The embedded code uses `JSON.parse` in two ways: to *check* that
string-typed bodies are valid JSON (`validateRequestData`), and to replace
a string body with its parsed value (`ModrMiddleware.prepareBody`). -/

/-- JSON whitespace. -/
def isJsonWs (c : Char) : Bool :=
  c = ' ' || c = '\n' || c = '\t' || c = '\r'

/-- Skip JSON whitespace. -/
def skipWs (s : JStr) : JStr := s.dropWhile isJsonWs

/-- Is this a hexadecimal digit character? -/
def isHexChar (c : Char) : Bool :=
  c.isDigit || (97 ≤ c.toNat && c.toNat ≤ 102) || (65 ≤ c.toNat && c.toNat ≤ 70)

/-- Numeric value of a hexadecimal digit character. -/
def hexCharVal (c : Char) : Nat :=
  if c.isDigit then c.toNat - 48
  else if 97 ≤ c.toNat then c.toNat - 87
  else c.toNat - 55

/-- The single-character JSON escapes. -/
def simpleEsc (e : Char) : Option Char :=
  if e = '"' then some '"'
  else if e = '\\' then some '\\'
  else if e = '/' then some '/'
  else if e = 'b' then some '\x08'
  else if e = 'f' then some '\x0c'
  else if e = 'n' then some '\n'
  else if e = 'r' then some '\r'
  else if e = 't' then some '\t'
  else none

/-- Parse the remainder of a JSON string literal (after the opening
quote), returning the decoded characters and the rest of the input. -/
def parseStrRest : JStr → Option (JStr × JStr)
  | [] => none
  | '"' :: rest => some ([], rest)
  | '\\' :: 'u' :: a :: b :: c :: d :: rest =>
      if isHexChar a && isHexChar b && isHexChar c && isHexChar d then
        match parseStrRest rest with
        | some (tail, r) =>
            some (Char.ofNat
              (4096 * hexCharVal a + 256 * hexCharVal b + 16 * hexCharVal c + hexCharVal d)
              :: tail, r)
        | none => none
      else none
  | '\\' :: e :: rest =>
      match simpleEsc e with
      | some c =>
          match parseStrRest rest with
          | some (tail, r) => some (c :: tail, r)
          | none => none
      | none => none
  | c :: rest =>
      if c.toNat < 32 then none
      else match parseStrRest rest with
        | some (tail, r) => some (c :: tail, r)
        | none => none

/-- Parse a run of decimal digits: value, digit count, rest. -/
def parseDigits : JStr → Nat → Nat → Option (Nat × Nat × JStr)
  | c :: rest, acc, cnt =>
      if c.isDigit then parseDigits rest (10 * acc + (c.toNat - 48)) (cnt + 1)
      else if cnt = 0 then none else some (acc, cnt, c :: rest)
  | [], acc, cnt => if cnt = 0 then none else some (acc, cnt, [])

/-- Parse a JSON number into a rational. -/
def parseNum (s : JStr) : Option (ℚ × JStr) :=
  let (neg, s₁) : Bool × JStr := match s with
    | '-' :: r => (true, r)
    | _ => (false, s)
  match parseDigits s₁ 0 0 with
  | none => none
  | some (intPart, _, s₂) =>
    let (frac, fracLen, s₃) : Nat × Nat × JStr := match s₂ with
      | '.' :: r =>
          match parseDigits r 0 0 with
          | some (f, n, rest) => (f, n, rest)
          | none => (0, 0, '.' :: r)
      | _ => (0, 0, s₂)
    let (expVal, s₄) : Int × JStr := match s₃ with
      | 'e' :: r | 'E' :: r =>
          let (esign, r₁) : Int × JStr := match r with
            | '+' :: r' => (1, r')
            | '-' :: r' => (-1, r')
            | _ => (1, r)
          match parseDigits r₁ 0 0 with
          | some (e, _, rest) => (esign * e, rest)
          | none => (0, s₃)
      | _ => (0, s₃)
    let mantissa : ℚ := intPart + (frac : ℚ) / (10 ^ fracLen : ℕ)
    let value : ℚ := (if neg then -mantissa else mantissa) * (10 : ℚ) ^ expVal
    some (value, s₄)

mutual

/-- Parse one JSON value. -/
def parseVal : Nat → JStr → Option (JsVal × JStr)
  | 0, _ => none
  | fuel + 1, s =>
    match skipWs s with
    | '\x7b' :: rest => parseObjFields fuel (skipWs rest) []
    | '[' :: rest => parseArrElems fuel (skipWs rest) []
    | '"' :: rest =>
        match parseStrRest rest with
        | some (str, r) => some (.str str, r)
        | none => none
    | 't' :: 'r' :: 'u' :: 'e' :: r => some (.boolV true, r)
    | 'f' :: 'a' :: 'l' :: 's' :: 'e' :: r => some (.boolV false, r)
    | 'n' :: 'u' :: 'l' :: 'l' :: r => some (.nullV, r)
    | rest =>
        match parseNum rest with
        | some (q, r) => some (.num q, r)
        | none => none

/-- Parse object fields after `{` (accumulator holds parsed fields). -/
def parseObjFields : Nat → JStr → List (String × JsVal) → Option (JsVal × JStr)
  | 0, _, _ => none
  | _ + 1, '\x7d' :: rest, acc => some (.obj acc.reverse, rest)
  | fuel + 1, s, acc =>
    let s := if acc.isEmpty then s else
      match skipWs s with
      | ',' :: r => skipWs r
      | other => other
    match skipWs s with
    | '"' :: rest =>
        match parseStrRest rest with
        | some (key, r) =>
            match skipWs r with
            | ':' :: r' =>
                match parseVal fuel r' with
                | some (v, r'') =>
                    match skipWs r'' with
                    | '\x7d' :: rest' => some (.obj (acc.reverse ++ [(String.mk key, v)]), rest')
                    | ',' :: rest' => parseObjFields fuel (',' :: rest') (acc ++ [(String.mk key, v)])
                    | _ => none
                | none => none
            | _ => none
        | none => none
    | _ => none

/-- Parse array elements after `[`. -/
def parseArrElems : Nat → JStr → List JsVal → Option (JsVal × JStr)
  | 0, _, _ => none
  | _ + 1, ']' :: rest, acc => some (.arr acc.reverse, rest)
  | fuel + 1, s, acc =>
    let s := if acc.isEmpty then s else
      match skipWs s with
      | ',' :: r => skipWs r
      | other => other
    match parseVal fuel (skipWs s) with
    | some (v, r) =>
        match skipWs r with
        | ']' :: rest' => some (.arr (acc.reverse ++ [v]), rest')
        | ',' :: rest' => parseArrElems fuel (',' :: rest') (acc ++ [v])
        | _ => none
    | none => none

end

/-- Model of `JSON.parse`: parses the whole input as one JSON value, requiring only
trailing whitespace afterwards. -/
def jsonParse (s : JStr) : Option JsVal :=
  match parseVal (s.length + 1) s with
  | some (v, rest) => if skipWs rest = [] then some v else none
  | none => none

/-- Does `JSON.parse` succeed on this string? -/
def jsonParseable (s : JStr) : Bool := (jsonParse s).isSome

/-! ## Interception middleware (`ModrMiddleware`) -/

/-- Lower-casing of a JS string (`String.prototype.toLowerCase`). -/
def jstrLower (s : JStr) : JStr := s.map Char.toLower

/-- Model of `String.prototype.toLowerCase` on a Lean `String` (character-wise, as
`String.toLower` computes it). -/
def strToLower (s : String) : String := String.mk (s.data.map Char.toLower)

/-- Model of `ModrMiddleware.options` (constructor lines 92–108, overridable via
`configure`). -/
structure MwOptions where
  ignorePaths : List String
  captureResponseBody : Bool
  captureHeaders : Bool
  maxBodySize : Nat
  onlyErrors : Bool
  captureMethods : List String
deriving Repr

/-- The constructor defaults: every `ignorePaths` entry is commented out
in the source, so the default list is empty. -/
def defaultMwOptions : MwOptions :=
  { ignorePaths := []
    captureResponseBody := true
    captureHeaders := true
    maxBodySize := 100000
    onlyErrors := false
    captureMethods := ["GET", "POST", "PUT", "DELETE", "PATCH"] }

/-- The fields of an Express request read by the middleware. -/
structure MwReq where
  method : String
  path : JsVal := .undefV
  url : JsVal := .undefV
  originalUrl : JsVal := .undefV
  headers : List (String × JsVal) := []
  body : JsVal := .undefV
  modrBypass : Bool := false
  route : JsVal := .undefV
  user : JsVal := .undefV
  ip : JsVal := .undefV
  connectionRemoteAddress : JsVal := .undefV

/-- Model of `String.prototype.includes`: does `needle` occur inside `hay`? -/
def jstrIncludes (hay needle : JStr) : Bool :=
  (List.range (hay.length + 1)).any (fun i => needle.isPrefixOf (hay.drop i))

/-- First-binding lookup in a header map, `undefined` when absent. -/
def hdrLookup (hs : List (String × JsVal)) (k : String) : JsVal :=
  match hs.find? (fun kv => kv.1 = k) with
  | some kv => kv.2
  | none => .undefV

/-- The characters of a `JsVal`, for string-typed values (`''` for the
`|| ''` fallback in `shouldCapture`). -/
def jsStrChars : JsVal → JStr
  | .str s => s
  | _ => []

/-- Model of `ModrMiddleware.shouldCapture` (lines 207–244).  The decision is a
function of the request and of `res.statusCode` *at the moment the
middleware evaluates it*; the source evaluates it once, at request entry
(line 128), before any route handler has run. -/
def shouldCapture (opts : MwOptions) (req : MwReq) (resStatusCode : Int) : Bool :=
  -- Verificar bypass flag
  if req.modrBypass then false
  -- Verificar método HTTP
  else if ¬ (opts.captureMethods.contains req.method) then false
  else
    -- Verificar rutas ignoradas
    let reqPath := jstrLower (jsStrChars ((req.originalUrl.jsOr req.url).jsOr (.str [])))
    let shouldIgnore := opts.ignorePaths.any (fun ignorePath =>
      let normalizedIgnorePath := jstrLower ignorePath.data
      reqPath = normalizedIgnorePath ∨
        (normalizedIgnorePath ++ ['/']).isPrefixOf reqPath ∨
        (normalizedIgnorePath ++ ['?']).isPrefixOf reqPath)
    if shouldIgnore then false
    -- Verificar WebSocket requests
    else if (match hdrLookup req.headers "upgrade" with
             | .str s => s = "websocket".data
             | _ => false)
        || (hdrLookup req.headers "sec-websocket-key").truthy
        || (match req.url with
            | .str s => jstrIncludes s "socket.io".data
            | _ => false) then false
    -- Si solo captura errores
    else if opts.onlyErrors ∧ resStatusCode < 400 then false
    else true

/-- Model of `ModrMiddleware.sanitizeHeaders` (lines 260–271): returns `{}` when
header capture is off, otherwise a copy of the header map with the
credential-bearing headers deleted. -/
def mwSanitizeHeaders (opts : MwOptions) (headers : List (String × JsVal)) :
    List (String × JsVal) :=
  if ¬ opts.captureHeaders then []
  else
    let excludeHeaders := ["authorization", "cookie", "set-cookie", "x-api-key"]
    excludeHeaders.foldl
      (fun sanitized h => sanitized.filter (fun kv => kv.1 ≠ strToLower h))
      headers

/-- Model of `headers['x-forwarded-for']?.split(',')[0]`: the text before the first
comma of a string header, `undefined` when the header is absent. -/
def splitCommaHead : JsVal → JsVal
  | .str s => .str (s.takeWhile (fun c => c ≠ ','))
  | _ => .undefV

/-- Model of `ModrMiddleware.getClientIp` (lines 249–255). -/
def getClientIp (req : MwReq) : JsVal :=
  (((req.ip.jsOr req.connectionRemoteAddress).jsOr
      (splitCommaHead (hdrLookup req.headers "x-forwarded-for"))).jsOr
    (hdrLookup req.headers "x-real-ip")).jsOr (.str "unknown".data)

/-- The string `JSON.stringify` would serialize a body to, as
`prepareBody` computes it: the body itself when it is a string, its JSON
serialization otherwise. -/
def bodyToStr (body : JsVal) : JStr :=
  match body with
  | .str s => s
  | v => stringify v

/-- Model of `ModrMiddleware.prepareBody` (lines 276–299): falsy bodies become
`null`; bodies whose serialized byte length exceeds `maxBodySize` are
replaced by a truncation marker carrying the byte length and the first 500
characters followed by `'...'`; string bodies are parsed as JSON when
possible; everything else passes through. -/
def prepareBody (opts : MwOptions) (body : JsVal) : JsVal :=
  if ¬ body.truthy then .nullV
  else
    let bodyStr := bodyToStr body
    if utf8Len bodyStr > opts.maxBodySize then
      .obj [("_modr_truncated", .boolV true),
            ("_size", .num (utf8Len bodyStr)),
            ("_preview", .str (bodyStr.take 500 ++ "...".data))]
    else
      match body with
      | .str s =>
          match jsonParse s with
          | some v => v
          | none => .str s
      | v => v

/-! ## ValidationUtils -/

/-- Whitespace trimming (`String.prototype.trim`). -/
def jstrTrim (s : JStr) : JStr :=
  ((s.dropWhile Char.isWhitespace).reverse.dropWhile Char.isWhitespace).reverse

/-- Model of `ValidationUtils.isValidUUID`: the case-insensitive version-4 UUID
regular expression
`/^[0-9a-f]\x7b8\x7d-[0-9a-f]\x7b4\x7d-4[0-9a-f]\x7b3\x7d-[89ab][0-9a-f]\x7b3\x7d-[0-9a-f]\x7b12\x7d$/i`,
checked positionally. -/
def isValidUUIDChars (cs : JStr) : Bool :=
  cs.length = 36 &&
  (List.range 36).all (fun i =>
    let c := cs.getD i ' '
    if i = 8 || i = 13 || i = 18 || i = 23 then c = '-'
    else if i = 14 then c = '4'
    else if i = 19 then
      c = '8' || c = '9' || c = 'a' || c = 'b' || c = 'A' || c = 'B'
    else isHexChar c)

/-- Model of `isValidUUID` on a string value. -/
def isValidUUID (s : String) : Bool := isValidUUIDChars s.data

/-- Model of `RegExp.test` of the UUID pattern against an arbitrary value: the
value is stringified first; no non-string value stringifies to a UUID. -/
def jsUuidTest : JsVal → Bool
  | .str s => isValidUUIDChars s
  | _ => false

/-- JS `parseInt`: truncating integer prefix parse.  `none` models `NaN`.
Numbers are truncated toward zero; strings are parsed after optional
whitespace and sign.  (`parseInt` of an array inspects its first element;
no array reaches this function in the embedded code.) -/
def jsParseInt : JsVal → Option Int
  | .num q => some (if q ≥ 0 then q.floor else q.ceil)
  | .str s =>
      let s₁ := s.dropWhile Char.isWhitespace
      let (neg, s₂) : Bool × JStr := match s₁ with
        | '-' :: r => (true, r)
        | '+' :: r => (false, r)
        | _ => (false, s₁)
      match parseDigits s₂ 0 0 with
      | some (v, _, _) => some (if neg then -(v : Int) else v)
      | none => none
  | _ => none

/-- Model of `ValidationUtils.validateHttpMethod`: result of the method check. -/
structure MethodValidation where
  isValid : Bool
  method : Option JStr

/-- Model of `ValidationUtils.validateHttpMethod` (part_006 lines 76–88):
upper-cases the method and requires membership in the fixed set. -/
def validateHttpMethod (method : JStr) : MethodValidation :=
  if method = [] then { isValid := true, method := none }
  else
    let validMethods := ["GET", "POST", "PUT", "DELETE", "PATCH", "OPTIONS", "HEAD"]
    let upperMethod := method.map Char.toUpper
    { isValid := validMethods.any (fun m => m.data = upperMethod)
      method := some upperMethod }

/-- Model of `ValidationUtils.validateStatusCode`: result of the status check.
`statusCode = none` models both the `null` returned for falsy input and
`NaN` from an unparseable one. -/
structure StatusValidation where
  isValid : Bool
  statusCode : Option Int

/-- Model of `ValidationUtils.validateStatusCode` (part_006 lines 93–104): falsy
input is valid with a `null` code; otherwise `parseInt`, and the code must
lie in `[100, 600)`. -/
def validateStatusCode (statusCode : JsVal) : StatusValidation :=
  if ¬ statusCode.truthy then { isValid := true, statusCode := none }
  else
    match jsParseInt statusCode with
    | none => { isValid := false, statusCode := none }
    | some code =>
        { isValid := 100 ≤ code ∧ code < 600, statusCode := some code }

/-- Modelled from the spec: `ValidationUtils.sanitizeInput` is required by
`CaptureService.js` but is not present under `src/` (part_006 carries only
`sanitizeSearch`).  Spec §4.3: "stripped of angle brackets and quote
characters, trimmed, hard-capped at 100 characters" — implemented in the
trim / strip / cap order of the sibling `sanitizeSearch`. -/
def sanitizeInput (s : JStr) : JStr :=
  ((jstrTrim s).filter (fun c => ¬ (c = '<' ∨ c = '>' ∨ c = '"' ∨ c = '\''))).take 100

/-- Is this a decimal representation of an IPv4 octet (0–255)? -/
def isOctet (cs : JStr) : Bool :=
  cs ≠ [] ∧ cs.length ≤ 3 ∧ cs.all Char.isDigit ∧
    (cs.foldl (fun a c => 10 * a + (c.toNat - 48)) 0) ≤ 255

/-- Split a list at a separator character. -/
def splitOn (sep : Char) (s : JStr) : List JStr :=
  match s.splitOnP (fun c => c = sep) with
  | parts => parts

/-- Modelled from the spec: `ValidationUtils.isValidIPAddress` is required
by `CaptureService.js` but is not present under `src/`.  Spec §4.3: "must
parse as a valid IPv4 or IPv6 literal".  IPv4: four decimal octets.
IPv6: 2–8 colon-separated groups of at most 4 hex digits, at most one
empty run (`::`). -/
def isValidIPAddress : JsVal → Bool
  | .str s =>
      (let parts := splitOn '.' s
       parts.length = 4 ∧ parts.all isOctet) ∨
      (let groups := splitOn ':' s
       2 ≤ groups.length ∧ groups.length ≤ 8 ∧
         groups.all (fun g => g.length ≤ 4 ∧ g.all isHexChar) ∧
         (groups.filter (fun g => g = [])).length ≤ 2)
  | _ => false

/-! ## Relational model (`raw_create_tables.sql` + Sequelize models)

`SERIAL` ids are assigned as `length + 1`; UUID primary keys come from the
validated input or explicit generator parameters. -/

/-- Model of `methods` table row. -/
structure MethodRow where
  method_id : Nat
  name : JStr
  description : JStr

/-- Model of `status` table row.  `code = none` models a JS `null` code (the
falsy-status corner of `validateStatusCode`). -/
structure StatusRow where
  status_id : Nat
  code : Option Int
  description : JStr

/-- Model of `headers` table row. -/
structure HeaderRow where
  header_id : Nat
  name : String
  description : JStr

/-- Model of `payloads` table row. -/
structure PayloadRow where
  payload_id : Nat
  payload_json : JsVal
  sent_from : JsVal

/-- Model of `responses` table row. -/
structure ResponseRow where
  response_id : Nat
  content : JsVal
  size : ℚ

/-- Model of `requests` table row. -/
structure RequestRow where
  request_id : String
  status_id : Nat
  method_id : Nat
  payload_id : Option Nat
  response_id : Option Nat
  path : JStr
  controller : JStr
  happened : Nat
  duration : Int
  made_by : String

/-- Model of `exceptions` table row. -/
structure ExceptionRow where
  exception_id : Nat
  request_id : String
  message : JStr
  type : JStr
  stack_trace : JsVal

/-- The database: one list per table.  `request_headers` is the pure join
table with composite primary key `(request_id, header_id)`. -/
structure DB where
  methods : List MethodRow := []
  status : List StatusRow := []
  headers : List HeaderRow := []
  payloads : List PayloadRow := []
  responses : List ResponseRow := []
  requests : List RequestRow := []
  request_headers : List (String × Nat) := []
  exceptions : List ExceptionRow := []

/-- The empty database. -/
def emptyDB : DB := {}

/-! ## Capture service: validation (`RequestCaptureService.validateRequestData`) -/

/-- The normalized capture record handed to
`RequestCaptureService.captureRequest`; absent fields are `undefined`. -/
structure ReqData where
  method : JsVal := .undefV
  path : JsVal := .undefV
  statusCode : JsVal := .undefV
  uuid : JsVal := .undefV
  user_id : JsVal := .undefV
  responseTime : JsVal := .undefV
  duration : JsVal := .undefV
  ipAddress : JsVal := .undefV
  controller : JsVal := .undefV
  requestBody : JsVal := .undefV
  responseBody : JsVal := .undefV
  headers : JsVal := .undefV
  error : JsVal := .undefV

/-- The `validatedData` object assembled by `validateRequestData`.  Fields
that a failing clause leaves unset hold defaults; they are only consumed
when validation produced no errors. -/
structure ValidData where
  method : JStr := []
  path : JStr := []
  statusCode : Option Int := none
  uuid : String := ""
  user_id : String := ""
  duration : Int := 0
  ipAddress : JsVal := .undefV
  controller : JStr := []
  requestBody : JsVal := .undefV
  responseBody : JsVal := .undefV
  headers : JsVal := .obj []
  error : JsVal := .undefV

/-- Model of `Math.round`: round half toward positive infinity, i.e.
`⌊q + 1/2⌋`, computed on the reduced fraction so that the kernel can
evaluate it (`jsRound_eq_floor` below validates the formula). -/
def jsRound (q : ℚ) : Int := (2 * q.num + (q.den : Int)) / (2 * (q.den : Int))

/-- The integer formula of `jsRound` is `⌊q + 1/2⌋`, i.e. JS
`Math.round`. -/
theorem jsRound_eq_floor (q : ℚ) : jsRound q = ⌊q + 1 / 2⌋ := by
  have hden : ((q.den : ℚ)) ≠ 0 := by
    exact_mod_cast q.den_nz
  have h : q + 1 / 2 = ((2 * q.num + (q.den : Int) : Int) : ℚ) / ((2 * q.den : ℕ) : ℚ) := by
    conv_lhs => rw [← Rat.num_div_den q]
    push_cast
    field_simp
    ring
  rw [h, Rat.floor_intCast_div_natCast, jsRound]
  push_cast
  rfl

/-- Method clause of `validateRequestData` (CaptureService lines 56–66). -/
def vMethod (m : JsVal) : List String × JStr :=
  match m with
  | .str s =>
      if s = [] then (["method is required and must be a string"], [])
      else
        let mv := validateHttpMethod s
        if ¬ mv.isValid then (["Invalid HTTP method"], [])
        else ([], mv.method.getD [])
  | _ => (["method is required and must be a string"], [])

/-- Path clause (lines 68–75). -/
def vPath (p : JsVal) : List String × JStr :=
  match p with
  | .str s =>
      if s = [] then (["path is required and must be a string"], [])
      else if s.length > 2000 then (["path cannot exceed 2000 characters"], [])
      else ([], jstrTrim s)
  | _ => (["path is required and must be a string"], [])

/-- Status clause (lines 77–87): absent status defaults to 200. -/
def vStatus (sc : JsVal) : List String × Option Int :=
  if sc.isUndefV then ([], some 200)
  else
    let sv := validateStatusCode sc
    if ¬ sv.isValid then (["Status code must be between 100 and 599"], none)
    else ([], sv.statusCode)

/-- UUID clause (lines 89–94): a truthy invalid uuid is an error,
otherwise the supplied uuid or a fresh `uuidv4()`. -/
def vUuid (u : JsVal) (genUuid : String) : List String × String :=
  if u.truthy ∧ ¬ jsUuidTest u then (["uuid must be a valid UUID format"], "")
  else
    ([], match u with
         | .str s => if s = [] then genUuid else String.mk s
         | _ => genUuid)

/-- user_id clause (lines 96–101): defaults to the system user uuid. -/
def vUserId (u : JsVal) : List String × String :=
  if u.truthy ∧ ¬ jsUuidTest u then (["user_id must be a valid UUID format"], "")
  else
    ([], match u with
         | .str s => if s = [] then "10000000-0000-0000-0000-000000000000" else String.mk s
         | _ => "10000000-0000-0000-0000-000000000000")

/-- Duration clause (lines 103–113): when either `responseTime` or
`duration` is supplied, the checked value is
`data.responseTime || data.duration` (a falsy `responseTime` falls back to
`duration`); it must be a number in `[0, 300000]` and is `Math.round`ed. -/
def vDuration (rt du : JsVal) : List String × Int :=
  if ¬ rt.isUndefV ∨ ¬ du.isUndefV then
    match rt.jsOr du with
    | .num q =>
        if q < 0 ∨ q > 300000 then
          (["duration must be a non-negative number less than 300000ms"], 0)
        else ([], jsRound q)
    | _ => (["duration must be a non-negative number less than 300000ms"], 0)
  else ([], 0)

/-- IP clause (lines 115–120): a truthy non-IP is an error; the default is
the loopback literal. -/
def vIp (ip : JsVal) : List String × JsVal :=
  if ip.truthy ∧ ¬ isValidIPAddress ip then
    (["ipAddress must be a valid IP address"], .undefV)
  else ([], ip.jsOr (.str "127.0.0.1".data))

/-- Controller clause (lines 122–127): defaults to the validated path. -/
def vController (c : JsVal) (validatedPath : JStr) : List String × JStr :=
  if c.truthy ∧ ¬ c.isStr then (["controller must be a string"], [])
  else
    ([], match c with
         | .str s => if s = [] then validatedPath else s
         | _ => validatedPath)

/-- Body clause (lines 129–151, used for both bodies): a string body must
be `JSON.parse`-able; any other supplied value passes through. -/
def vBody (b : JsVal) (errMsg : String) : List String × JsVal :=
  if b.isUndefV then ([], .undefV)
  else
    match b with
    | .str s => if jsonParseable s then ([], .str s) else ([errMsg], .undefV)
    | v => ([], v)

/-- Headers clause (lines 153–158): a truthy non-object is an error;
the default is `{}`. -/
def vHeaders (h : JsVal) : List String × JsVal :=
  if h.truthy ∧ ¬ h.typeofObject then (["headers must be an object"], .obj [])
  else ([], h.jsOr (.obj []))

/-- Error clause (lines 160–167). -/
def vError (e : JsVal) : List String × JsVal :=
  if ¬ e.truthy then ([], .undefV)
  else if ¬ e.typeofObject then (["error must be an object"], .undefV)
  else ([], e)

/-- Result of `validateRequestData`. -/
structure VResult where
  errors : List String
  data : ValidData

/-- Model of `RequestCaptureService.validateRequestData` (lines 52–174), with
`uuidv4()` supplied as the `genUuid` parameter. -/
def validateRequestData (genUuid : String) (d : ReqData) : VResult :=
  let m := vMethod d.method
  let p := vPath d.path
  let st := vStatus d.statusCode
  let u := vUuid d.uuid genUuid
  let ui := vUserId d.user_id
  let du := vDuration d.responseTime d.duration
  let ip := vIp d.ipAddress
  let c := vController d.controller p.2
  let rb := vBody d.requestBody "requestBody must be valid JSON if provided as string"
  let sb := vBody d.responseBody "responseBody must be valid JSON if provided as string"
  let h := vHeaders d.headers
  let e := vError d.error
  { errors := m.1 ++ p.1 ++ st.1 ++ u.1 ++ ui.1 ++ du.1 ++ ip.1 ++ c.1 ++ rb.1 ++ sb.1 ++ h.1 ++ e.1
    data :=
      { method := m.2, path := p.2, statusCode := st.2, uuid := u.2, user_id := ui.2
        duration := du.2, ipAddress := ip.2, controller := c.2
        requestBody := rb.2, responseBody := sb.2, headers := h.2, error := e.2 } }

/-! ## Capture service: sanitization -/

/-- Insert-or-overwrite a binding (JS object property assignment). -/
def upsert (m : List (String × JsVal)) (k : String) (v : JsVal) :
    List (String × JsVal) :=
  if m.any (fun kv => kv.1 = k) then
    m.map (fun kv => if kv.1 = k then (k, v) else kv)
  else m ++ [(k, v)]

/-- Model of `RequestCaptureService.sanitizeHeaders` (lines 193–204): keeps only
string-valued entries, lower-cases keys, sanitizes values.  Non-object
shapes yield `{}` (`!headers || typeof headers !== 'object'`). -/
def svcSanitizeHeaders : JsVal → JsVal
  | .obj fs =>
      .obj (fs.foldl (fun sanitized kv =>
        match kv.2 with
        | .str v => upsert sanitized (strToLower kv.1) (.str (sanitizeInput v))
        | _ => sanitized) [])
  | _ => .obj []

/-- Model of `RequestCaptureService.sanitizeJsonData` (lines 209–222): falsy data
becomes `null`; data whose JSON serialization exceeds 100000 characters is
replaced by a `_truncated` marker carrying the original length.
(`JSON.stringify` cannot throw on the inductive values of this model, so
the `catch → null` branch is unreachable.) -/
def sanitizeJsonData (data : JsVal) : JsVal :=
  if ¬ data.truthy then .nullV
  else
    let jsonString := stringify data
    if jsonString.length > 100000 then
      .obj [("_truncated", .boolV true), ("_originalSize", .num jsonString.length)]
    else data

/-- Model of `RequestCaptureService.sanitizeRequestData` (lines 179–188). -/
def sanitizeRequestData (data : ValidData) : ValidData :=
  { data with
    path := sanitizeInput data.path
    controller := sanitizeInput data.controller
    headers := svcSanitizeHeaders data.headers
    requestBody := sanitizeJsonData data.requestBody
    responseBody := sanitizeJsonData data.responseBody }

/-! ## Capture service: the transaction (`executeCapture`)

Each primitive database round trip consults a fault oracle indexed by an
operation counter, so that a fault can be injected at any step of the
transaction. -/

/-- Fault oracle: `fs n = true` makes the `n`-th database operation of the
transaction throw. -/
abbrev Faults := Nat → Bool

/-- The no-fault oracle. -/
def noFaults : Faults := fun _ => false

/-- Errors thrown inside the capture pipeline. -/
inductive CapErr where
  | dbFault : Nat → CapErr
  | uniqueViolation : CapErr
  | rollbackFinished : CapErr
deriving DecidableEq, Repr

/-- Model of `RequestCaptureService.getOrCreateMethod` (lines 539–553): `findOne`
by name, `create` when absent.  There is no handler for a uniqueness
violation on the create. -/
def getOrCreateMethod (fs : Faults) (methodName : JStr) (db : DB) (n : Nat) :
    Except CapErr (MethodRow × DB × Nat) :=
  if fs n then .error (.dbFault n)
  else
    match db.methods.find? (fun m => m.name = methodName) with
    | some method => .ok (method, db, n + 1)
    | none =>
        if fs (n + 1) then .error (.dbFault (n + 1))
        else
          let method : MethodRow :=
            { method_id := db.methods.length + 1
              name := methodName
              description := "HTTP ".data ++ methodName ++ " method".data }
          .ok (method, { db with methods := db.methods ++ [method] }, n + 2)

/-- The static fallback description table of `getOrCreateStatus`
(lines 562–570), with the `HTTP ${statusCode}` generic fallback. -/
def statusDescription (code : Option Int) : JStr :=
  match code with
  | some c =>
      if c = 200 then "OK - Request successful".data
      else if c = 201 then "Created - Resource created successfully".data
      else if c = 400 then "Bad Request - Invalid request".data
      else if c = 401 then "Unauthorized - Authentication required".data
      else if c = 403 then "Forbidden - Access denied".data
      else if c = 404 then "Not Found - Resource not found".data
      else if c = 500 then "Internal Server Error - Server error occurred".data
      else "HTTP ".data ++ (toString c).data
  | none => "HTTP null".data

/-- Model of `RequestCaptureService.getOrCreateStatus` (lines 555–579): same
find-then-create shape as `getOrCreateMethod`. -/
def getOrCreateStatus (fs : Faults) (statusCode : Option Int) (db : DB) (n : Nat) :
    Except CapErr (StatusRow × DB × Nat) :=
  if fs n then .error (.dbFault n)
  else
    match db.status.find? (fun st => st.code = statusCode) with
    | some status => .ok (status, db, n + 1)
    | none =>
        if fs (n + 1) then .error (.dbFault (n + 1))
        else
          let status : StatusRow :=
            { status_id := db.status.length + 1
              code := statusCode
              description := statusDescription statusCode }
          .ok (status, { db with status := db.status ++ [status] }, n + 2)

/-- Model of `RequestCaptureService.createPayload` (lines 581–586). -/
def createPayload (fs : Faults) (data : ValidData) (db : DB) (n : Nat) :
    Except CapErr (PayloadRow × DB × Nat) :=
  if fs n then .error (.dbFault n)
  else
    let payload : PayloadRow :=
      { payload_id := db.payloads.length + 1
        payload_json := data.requestBody
        sent_from := data.ipAddress }
    .ok (payload, { db with payloads := db.payloads ++ [payload] }, n + 1)

/-- Model of `RequestCaptureService.createResponse` (lines 588–597):
`size = Buffer.byteLength(JSON.stringify(body), 'utf8') / 1024`. -/
def createResponse (fs : Faults) (data : ValidData) (db : DB) (n : Nat) :
    Except CapErr (ResponseRow × DB × Nat) :=
  if fs n then .error (.dbFault n)
  else
    let responseSize : ℚ :=
      if data.responseBody.truthy then
        (utf8Len (stringify data.responseBody) : ℚ) / 1024
      else 0
    let response : ResponseRow :=
      { response_id := db.responses.length + 1
        content := data.responseBody
        size := responseSize }
    .ok (response, { db with responses := db.responses ++ [response] }, n + 1)

/-- Model of `RequestCaptureService.createMainRequest` (lines 599–612): `happened`
is the server wall clock (`new Date()`), passed as `now`. -/
def createMainRequest (fs : Faults) (now : Nat) (data : ValidData)
    (method_id status_id : Nat) (payload_id response_id : Option Nat)
    (db : DB) (n : Nat) : Except CapErr (RequestRow × DB × Nat) :=
  if fs n then .error (.dbFault n)
  else
    let request : RequestRow :=
      { request_id := data.uuid
        status_id := status_id
        method_id := method_id
        payload_id := payload_id
        response_id := response_id
        path := data.path
        controller := data.controller
        happened := now
        duration := data.duration
        made_by := data.user_id }
    .ok (request, { db with requests := db.requests ++ [request] }, n + 1)

/-- The fixed allow-list of `processHeaders` (lines 617–624). -/
def importantHeaders : List String :=
  ["user-agent", "content-type", "accept", "origin", "referer", "x-forwarded-for"]

/-- Model of `INSERT INTO request_headers … ON CONFLICT DO NOTHING`: the composite
primary key `(request_id, header_id)` makes a duplicate insert a no-op. -/
def insertRequestHeader (db : DB) (requestId : String) (headerId : Nat) : DB :=
  if (requestId, headerId) ∈ db.request_headers then db
  else { db with request_headers := db.request_headers ++ [(requestId, headerId)] }

/-- The per-header-name body of the `processHeaders` loop (lines 626–649):
lookup-or-create the header row, then the conflict-ignoring join insert. -/
def processHeadersLoop (fs : Faults) (requestId : String) (headers : JsVal) :
    List String → DB → Nat → Except CapErr (DB × Nat)
  | [], db, n => .ok (db, n)
  | headerName :: rest, db, n =>
      if ¬ (headers.getField headerName).truthy then
        processHeadersLoop fs requestId headers rest db n
      else
        if fs n then .error (.dbFault n)
        else
          match db.headers.find? (fun h => h.name = headerName) with
          | some header =>
              if fs (n + 1) then .error (.dbFault (n + 1))
              else
                processHeadersLoop fs requestId headers rest
                  (insertRequestHeader db requestId header.header_id) (n + 2)
          | none =>
              if fs (n + 1) then .error (.dbFault (n + 1))
              else
                let header : HeaderRow :=
                  { header_id := db.headers.length + 1
                    name := headerName
                    description := headerName.data ++ " header".data }
                let db₁ := { db with headers := db.headers ++ [header] }
                if fs (n + 2) then .error (.dbFault (n + 2))
                else
                  processHeadersLoop fs requestId headers rest
                    (insertRequestHeader db₁ requestId header.header_id) (n + 3)

/-- Model of `RequestCaptureService.processHeaders` (lines 614–650). -/
def processHeaders (fs : Faults) (requestId : String) (headers : JsVal)
    (db : DB) (n : Nat) : Except CapErr (DB × Nat) :=
  if ¬ headers.truthy then .ok (db, n)
  else processHeadersLoop fs requestId headers importantHeaders db n

/-! ## Capture service: exception capture

`RequestCaptureService` declares `captureException(exceptionData)`
(lines 393–438) — a public single-argument API that validates a data
object.  `executeCapture` (line 263) nevertheless invokes it as
`this.captureException(request.request_id, data.error, transaction)`, so
the string `request_id` arrives as `exceptionData` and the remaining
arguments are dropped. -/

/-- The `validatedData` of `validateExceptionData`. -/
structure ExValidData where
  requestId : String := ""
  message : JStr := []
  type : JStr := "system".data
  stackTrace : JsVal := .undefV
  file : JsVal := .undefV
  line : Option Int := none
  code : JsVal := .undefV

/-- Model of `RequestCaptureService.validateExceptionData` (lines 443–507).  Note
the `type` default: `data.type || 'system'` — unconditionally `'system'`,
with no status-based classification. -/
def validateExceptionData (d : JsVal) : List String × ExValidData :=
  let requestId := d.getField "requestId"
  let message := d.getField "message"
  let type := d.getField "type"
  let stackTrace := d.getField "stackTrace"
  let file := d.getField "file"
  let line := d.getField "line"
  let code := d.getField "code"
  let ridR : List String × String :=
    if ¬ requestId.truthy ∨ ¬ jsUuidTest requestId then
      (["requestId is required and must be a valid UUID"], "")
    else ([], match requestId with | .str s => String.mk s | _ => "")
  let msgR : List String × JStr :=
    match message with
    | .str s =>
        if s = [] then (["message is required and must be a string"], [])
        else if s.length > 2000 then (["message cannot exceed 2000 characters"], [])
        else ([], jstrTrim s)
    | _ => (["message is required and must be a string"], [])
  let validTypes := ["system", "business", "validation", "authentication", "authorization"]
  let typeR : List String × JStr :=
    if type.truthy && !(match type with
                        | .str s => validTypes.any (fun t => t.data = s)
                        | _ => false) then
      (["type must be one of: system, business, validation, authentication, authorization"], [])
    else
      ([], match type with
           | .str s => if s = [] then "system".data else s
           | _ => "system".data)
  let stR : List String × JsVal :=
    if stackTrace.truthy ∧ ¬ stackTrace.isStr then (["stackTrace must be a string"], .undefV)
    else ([], stackTrace)
  let fileR : List String × JsVal :=
    if file.truthy ∧ ¬ file.isStr then (["file must be a string"], .undefV)
    else ([], file)
  let lineR : List String × Option Int :=
    if line.isUndefV then ([], none)
    else
      match jsParseInt line with
      | none => (["line must be a non-negative integer"], none)
      | some l => if l < 0 then (["line must be a non-negative integer"], none) else ([], some l)
  let codeR : List String × JsVal :=
    if code.truthy ∧ ¬ code.isStr then (["code must be a string"], .undefV)
    else ([], code)
  (ridR.1 ++ msgR.1 ++ typeR.1 ++ stR.1 ++ fileR.1 ++ lineR.1 ++ codeR.1,
   { requestId := ridR.2, message := msgR.2, type := typeR.2, stackTrace := stR.2
     file := fileR.2, line := lineR.2, code := codeR.2 })

/-- Model of `RequestCaptureService.captureException(exceptionData)`
(lines 393–438): validate, `findByPk` the request, create the Exception
row.  The `models.*` calls carry no `transaction`, so they act on the
committed database, never on the transaction's staged state; `file`,
`line` and `code` have no column in the `exceptions` table and are
dropped.  Returns the `{success}` flag together with the database. -/
def captureExceptionApi (exceptionData : JsVal) (db : DB) : Bool × DB :=
  let v := validateExceptionData exceptionData
  if v.1 ≠ [] then (false, db)
  else
    match db.requests.find? (fun r => r.request_id = v.2.requestId) with
    | none => (false, db)
    | some _ =>
        let ex : ExceptionRow :=
          { exception_id := db.exceptions.length + 1
            request_id := v.2.requestId
            message := v.2.message
            type := v.2.type
            stack_trace := v.2.stackTrace }
        (true, { db with exceptions := db.exceptions ++ [ex] })

/-! ## Capture service: event emission and the full capture -/

/-- A notification event as `emitRequestEvent` builds it (lines 655–662). -/
structure EventData where
  id : String
  method : JStr
  path : JStr
  statusCode : Option Int
  duration : Int
  timestamp : Nat

/-- The socket: `none` models an absent `this.io`; `some emitOk` models a
connected notifier whose `emit` on a given channel either succeeds or
throws (`emitOk channel = false`). -/
abbrev Notifier := Option (String → Bool)

/-- Model of `RequestCaptureService.emitRequestEvent` (lines 652–669): publish on
`modr:new_request`, and additionally on `modr:error_request` when the
status code is ≥ 400.  Returns the delivered events and whether an emit
threw; there is no try/catch in the source around either emit. -/
def emitRequestEvent (io : Notifier) (request : RequestRow) (method : MethodRow)
    (status : StatusRow) : List (String × EventData) × Bool :=
  match io with
  | none => ([], false)
  | some emitOk =>
      let eventData : EventData :=
        { id := request.request_id
          method := method.name
          path := request.path
          statusCode := status.code
          duration := request.duration
          timestamp := request.happened }
      if ¬ emitOk "modr:new_request" then ([], true)
      else
        if (match status.code with | some c => decide (c ≥ 400) | none => false) then
          if ¬ emitOk "modr:error_request" then ([("modr:new_request", eventData)], true)
          else ([("modr:new_request", eventData), ("modr:error_request", eventData)], false)
        else ([("modr:new_request", eventData)], false)

/-- Steps 1–7 of `executeCapture` (lines 230–264), run against the
transaction-staged database `db` with fault oracle `fs`.  `dbCommitted`
is the pre-transaction database, which is what the transactionless
`captureException` call of step 7 observes. -/
def capTx (fs : Faults) (now : Nat) (data : ValidData) (dbCommitted db : DB) :
    Except CapErr (DB × RequestRow × MethodRow × StatusRow) :=
  -- 1. Obtener o crear método HTTP
  match getOrCreateMethod fs data.method db 0 with
  | .error e => .error e
  | .ok (method, db₁, n₁) =>
  -- 2. Obtener o crear status HTTP
  match getOrCreateStatus fs data.statusCode db₁ n₁ with
  | .error e => .error e
  | .ok (status, db₂, n₂) =>
  -- 3. Crear payload si hay datos
  match (if data.requestBody.truthy ∧ data.requestBody.objectKeysLength > 0 then
           match createPayload fs data db₂ n₂ with
           | .error e => .error e
           | .ok (p, db', n') => .ok (some p.payload_id, db', n')
         else (.ok (none, db₂, n₂) : Except CapErr (Option Nat × DB × Nat))) with
  | .error e => .error e
  | .ok (payload_id, db₃, n₃) =>
  -- 4. Crear response si hay datos
  match (if data.responseBody.truthy then
           match createResponse fs data db₃ n₃ with
           | .error e => .error e
           | .ok (r, db', n') => .ok (some r.response_id, db', n')
         else (.ok (none, db₃, n₃) : Except CapErr (Option Nat × DB × Nat))) with
  | .error e => .error e
  | .ok (response_id, db₄, n₄) =>
  -- 5. Crear el request principal
  match createMainRequest fs now data method.method_id status.status_id
      payload_id response_id db₄ n₄ with
  | .error e => .error e
  | .ok (request, db₅, n₅) =>
  -- 6. Procesar headers
  match processHeaders fs request.request_id data.headers db₅ n₅ with
  | .error e => .error e
  | .ok (db₆, _) =>
  -- 7. Capturar excepciones si las hay: the call passes the request id
  -- string where `captureException` expects its data object, so its
  -- validation fails, its `{success:false}` result is discarded (the call
  -- site ignores the return value), and the committed database is
  -- untouched (`captureExceptionApi_on_string` below).
  if data.error.truthy ∧ (data.error.getField "message").truthy then
    let _ := captureExceptionApi (.str request.request_id.data) dbCommitted
    .ok (db₆, request, method, status)
  else
    .ok (db₆, request, method, status)

/-- Model of `RequestCaptureService.executeCapture` (lines 227–277): run steps 1–7
in a transaction; on failure roll back (the caller's database is
unchanged) and rethrow; on success commit, then emit the event.  An emit
that throws lands in the same `catch`, whose `transaction.rollback()` on
the already-committed transaction itself throws — the commit stands and
`CapErr.rollbackFinished` propagates. -/
def executeCapture (fs : Faults) (io : Notifier) (now : Nat) (data : ValidData)
    (db : DB) : DB × List (String × EventData) × Except CapErr RequestRow :=
  match capTx fs now data db db with
  | .error e => (db, [], .error e)
  | .ok (staged, request, method, status) =>
      -- await transaction.commit()
      match emitRequestEvent io request method status with
      | (events, false) => (staged, events, .ok request)
      | (events, true) => (staged, events, .error .rollbackFinished)

/-- The outcome object returned by `captureRequest`. -/
inductive CapOutcome where
  | success : RequestRow → CapOutcome
  | validationError : List String → CapOutcome
  | databaseError : CapErr → CapOutcome

/-- Is this outcome `{success: true}`? -/
def CapOutcome.isSuccess : CapOutcome → Bool
  | .success _ => true
  | _ => false

/-- Model of `RequestCaptureService.captureRequest` (lines 18–47): validate,
sanitize, run `executeCapture`; any throw from the transaction (or from
the post-commit emit) is caught and converted into a
`handleDatabaseError` failure result. -/
def svcCaptureRequest (fs : Faults) (io : Notifier) (genUuid : String) (now : Nat)
    (d : ReqData) (db : DB) : CapOutcome × DB × List (String × EventData) :=
  let validation := validateRequestData genUuid d
  if validation.errors ≠ [] then (.validationError validation.errors, db, [])
  else
    let sanitizedData := sanitizeRequestData validation.data
    match executeCapture fs io now sanitizedData db with
    | (db', events, .ok request) => (.success request, db', events)
    | (db', events, .error e) => (.databaseError e, db', events)

/-! ## Capture controller (`CaptureController.captureRequest(req, res)`) -/

/-- Short-circuiting JS `||` over possibly-throwing operands. -/
def jsOrE (a : Except JsErr JsVal) (b : Unit → Except JsErr JsVal) :
    Except JsErr JsVal := do
  let va ← a
  if va.truthy then pure va else b ()

/-- Model of `req.body.k`: reads `req.body`, then `k` on it — the second read
throws when `req.body` is `undefined`/`null`. -/
def bodyField (req : JsVal) (k : String) : Except JsErr JsVal := do
  let body ← jsGetE req "body"
  jsGetE body k

/-- Optional chaining `v?.k`. -/
def optChainField (v : JsVal) (k : String) : JsVal :=
  match v with
  | .undefV => .undefV
  | .nullV => .undefV
  | _ => v.getField k

/-- The `requestData` extraction of `CaptureController.captureRequest`
(lines 15–30), which reads every field off `req.body` with fallbacks to
the Express request. -/
def buildRequestData (req : JsVal) : Except JsErr ReqData := do
  let method ← jsOrE (bodyField req "method")
    (fun _ => jsOrE (jsGetE req "method") (fun _ => pure (.str "GET".data)))
  let path ← jsOrE (bodyField req "path")
    (fun _ => jsOrE (jsGetE req "path")
      (fun _ => jsOrE (jsGetE req "originalUrl") (fun _ => pure (.str "/".data))))
  let statusCode ← jsOrE (bodyField req "statusCode") (fun _ => bodyField req "status_code")
  let requestBody ← jsOrE (bodyField req "requestBody")
    (fun _ => jsOrE (bodyField req "request_body") (fun _ => bodyField req "payload"))
  let responseBody ← jsOrE (bodyField req "responseBody")
    (fun _ => jsOrE (bodyField req "response_body") (fun _ => bodyField req "response"))
  let headers ← jsOrE (bodyField req "headers")
    (fun _ => jsOrE (jsGetE req "headers") (fun _ => pure (.obj [])))
  let ipAddress ← jsOrE (bodyField req "ipAddress")
    (fun _ => jsOrE (bodyField req "ip_address")
      (fun _ => jsOrE (jsGetE req "ip")
        (fun _ => do
          let c ← jsGetE req "connection"
          pure (optChainField c "remoteAddress"))))
  let responseTime ← jsOrE (bodyField req "responseTime")
    (fun _ => jsOrE (bodyField req "response_time") (fun _ => bodyField req "duration"))
  let user_id ← jsOrE (bodyField req "user_id") (fun _ => bodyField req "userId")
  let controller ← bodyField req "controller"
  let uuid ← jsOrE (bodyField req "uuid") (fun _ => bodyField req "request_id")
  let error ← bodyField req "error"
  let duration ← bodyField req "duration"
  pure { method := method, path := path, statusCode := statusCode
         requestBody := requestBody, responseBody := responseBody
         headers := headers, ipAddress := ipAddress, responseTime := responseTime
         user_id := user_id, controller := controller, uuid := uuid
         error := error, duration := duration }

/-! ### `ErrorHandler` / `ResponseSanitizer`

The module `CaptureController.js` imports from `../../utils/ErrorHandler`
is staged in the repository at the end of
`src/backend/src/routes/cleanupRoutes.js` (after the related-doc
separator, lines 394–635), exporting `{ ErrorHandler, ResponseSanitizer }`.
ISO timestamps (`new Date().toISOString()`) are abstracted to the numeric
clock parameter `now`, like `happened` elsewhere in the model. -/

/-- Model of `ErrorHandler.HTTP_CODES[t]` (cleanupRoutes.js staged module):
the HTTP status registered for an error-type string, `undefined` for an
unknown key. -/
def httpCodesLookup : JsVal → JsVal
  | .str t =>
      if t = "VALIDATION_ERROR".data then .num 400
      else if t = "NOT_FOUND".data then .num 404
      else if t = "DATABASE_ERROR".data then .num 500
      else if t = "INTERNAL_ERROR".data then .num 500
      else if t = "TIMEOUT_ERROR".data then .num 408
      else if t = "UNAUTHORIZED_ERROR".data then .num 401
      else .undefV
  | _ => .undefV

/-- Model of `ErrorHandler.createError(type, message, details, originalError)`:
the structured error object.  `originalError ? originalError.message : null`
is taken as a `JsVal` argument (the thrown JS error's message, `null` when
no original error is passed). -/
def createError (now : Nat) (type : String) (message : JStr)
    (details : JsVal) (originalErrorMessage : JsVal) : JsVal :=
  .obj [("type", .str type.data), ("message", .str message),
        ("details", details), ("timestamp", .num now),
        ("originalError", originalErrorMessage)]

/-- Model of `ErrorHandler.handleDatabaseError(error)` applied to the errors the
capture transaction can throw: a uniqueness violation is Sequelize's
`SequelizeUniqueConstraintError` (→ `VALIDATION_ERROR`, "Duplicate entry
found"); any other throw takes the generic database branch.  The thrown
error's `message`/`errors` payloads are not modelled (`null`/`undefined`
as the source's optional chains produce for them). -/
def capErrToErrorJs (now : Nat) (e : CapErr) : JsVal :=
  match e with
  | .uniqueViolation =>
      createError now "VALIDATION_ERROR" "Duplicate entry found".data .undefV .nullV
  | _ =>
      createError now "DATABASE_ERROR" "Database operation failed".data .nullV .nullV

/-- The created Request row as the JSON-shaped object the controller's
response pipeline receives from the service. -/
def requestRowToJs (r : RequestRow) : JsVal :=
  .obj [("request_id", .str r.request_id.data),
        ("status_id", .num r.status_id),
        ("method_id", .num r.method_id),
        ("payload_id", match r.payload_id with | some i => .num i | none => .nullV),
        ("response_id", match r.response_id with | some i => .num i | none => .nullV),
        ("path", .str r.path),
        ("controller", .str r.controller),
        ("happened", .num r.happened),
        ("duration", .num r.duration),
        ("made_by", .str r.made_by.data)]

/-- The result object `RequestCaptureService.captureRequest` returns, in its
JSON shape: `{success: true, data}` or `{success: false, error}` with the
`ErrorHandler`-structured error (`handleValidationError` produces
`VALIDATION_ERROR` with the error list as details, `handleDatabaseError`
per `capErrToErrorJs`). -/
def capOutcomeToJs (now : Nat) : CapOutcome → JsVal
  | .success r => .obj [("success", .boolV true), ("data", requestRowToJs r)]
  | .validationError errs =>
      .obj [("success", .boolV false),
            ("error", createError now "VALIDATION_ERROR" "Request validation failed".data
              (.arr (errs.map (fun e => .str e.data))) .nullV)]
  | .databaseError e =>
      .obj [("success", .boolV false), ("error", capErrToErrorJs now e)]

/-- Model of `ResponseSanitizer.error(error, httpCode)`:
`code = httpCode || HTTP_CODES[error.type] || 500`, then the sanitized
`{success:false, error, message, details, timestamp, httpCode}` object
read off the given error object's fields. -/
def responseSanitizerError (now : Nat) (error : JsVal) (httpCode : JsVal) : JsVal :=
  let code := httpCode.jsOr ((httpCodesLookup (error.getField "type")).jsOr (.num 500))
  .obj [("success", .boolV false),
        ("error", (error.getField "type").jsOr (.str "INTERNAL_ERROR".data)),
        ("message", error.getField "message"),
        ("details", (error.getField "details").jsOr .nullV),
        ("timestamp", (error.getField "timestamp").jsOr (.num now)),
        ("httpCode", code)]

/-- The sensitive field names `ResponseSanitizer.sanitizeOutput` redacts. -/
def sensitiveFields : List String := ["password", "token", "secret", "key", "private"]

mutual

/-- Model of `ResponseSanitizer.sanitizeOutput`: arrays are sanitized
element-wise; objects get their truthy sensitive fields replaced by
`[REDACTED]` and their remaining truthy object-valued fields sanitized
recursively; anything else (including falsy data) passes through. -/
def sanitizeOutput : JsVal → JsVal
  | .arr xs => .arr (sanitizeOutputElems xs)
  | .obj fs => .obj (sanitizeOutputFields fs)
  | v => v

/-- Element-wise sanitization of an array. -/
def sanitizeOutputElems : List JsVal → List JsVal
  | [] => []
  | v :: rest => sanitizeOutput v :: sanitizeOutputElems rest

/-- Per-field redaction then recursion, as the source's two passes compose:
a redacted field becomes a string and is not recursed into. -/
def sanitizeOutputFields : List (String × JsVal) → List (String × JsVal)
  | [] => []
  | (k, v) :: rest =>
      let v₁ :=
        if sensitiveFields.contains k && v.truthy then JsVal.str "[REDACTED]".data
        else if v.truthy && v.typeofObject then sanitizeOutput v
        else v
      (k, v₁) :: sanitizeOutputFields rest

end

/-- Model of `ResponseSanitizer.handleControllerResponse(res, result, …)`
(cleanupRoutes.js staged module, lines 605–627).  Error results — note the
source passes the whole *result* wrapper to `this.error`, not
`result.error`, so the sanitized reply reads `type`/`message` off the
wrapper (absent → `INTERNAL_ERROR`, code 500) — go through
`res.status(...).json(...)`; success results are output-sanitized and go
through `res.json(...)`.  Either `res` access throws when `res` is
`undefined`; the function's own catch then throws again at its
`res.status(...)`.  (The controller's extra `201` argument is dropped by
the three-parameter signature.) -/
def handleControllerResponse (now : Nat) (res result : JsVal) :
    Except JsErr JsVal :=
  let tryBlock : Except JsErr JsVal :=
    if (match result.getField "success" with
        | .boolV false => true
        | _ => false) || (result.getField "error").truthy then
      let sanitizedError := responseSanitizerError now result .undefV
      do
        let _ ← jsGetE res "status"
        pure sanitizedError
    else
      let sanitizedData := sanitizeOutput ((result.getField "data").jsOr result)
      if (result.getField "pagination").truthy then
        do
          let _ ← jsGetE res "json"
          pure (.obj [("success", .boolV true), ("data", sanitizedData),
                      ("pagination", result.getField "pagination"),
                      ("message", .str "Request captured successfully".data),
                      ("timestamp", .num now)])
      else
        do
          let _ ← jsGetE res "json"
          pure (.obj [("success", .boolV true), ("data", sanitizedData),
                      ("message", .str "Request captured successfully".data),
                      ("timestamp", .num now)])
  match tryBlock with
  | .ok v => .ok v
  | .error _ =>
      -- catch: console.error; handleInternalError; this.error; res.status(...).json(...)
      let internalError := createError now "INTERNAL_ERROR"
        "An internal server error occurred".data .nullV .nullV
      let sanitizedError := responseSanitizerError now internalError .undefV
      match jsGetE res "status" with
      | .ok _ => .ok sanitizedError
      | .error e => .error e

/-- The `catch` block of `CaptureController.captureRequest` (lines 42–50):
build the sanitized error response via `ResponseSanitizer.error` on the
inline `INTERNAL_ERROR` object, then
`res.status(errorResponse.httpCode).json(errorResponse)`, which itself
throws when `res` is `undefined`. -/
def controllerCatch (now : Nat) (res : JsVal) (db : DB)
    (events : List (String × EventData)) :
    DB × List (String × EventData) × Except JsErr JsVal :=
  let errorResponse := responseSanitizerError now
    (.obj [("type", .str "INTERNAL_ERROR".data),
           ("message", .str "An unexpected error occurred while capturing request".data),
           ("timestamp", .num now)]) .undefV
  match jsGetE res "status" with
  | .error e => (db, events, .error e)
  | .ok _ => (db, events, .ok errorResponse)

/-- Model of `CaptureController.captureRequest(req, res)` (lines 13–51): extract
`requestData` from the request, run the service capture, hand the result
to `ResponseSanitizer.handleControllerResponse`; any throw lands in the
controller's catch block. -/
def controllerCaptureRequest (fs : Faults) (io : Notifier) (genUuid : String)
    (now : Nat) (req res : JsVal) (db : DB) :
    DB × List (String × EventData) × Except JsErr JsVal :=
  match buildRequestData req with
  | .error _ => controllerCatch now res db []
  | .ok requestData =>
      let (result, db', events) := svcCaptureRequest fs io genUuid now requestData db
      match handleControllerResponse now res (capOutcomeToJs now result) with
      | .ok v => (db', events, .ok v)
      | .error _ => controllerCatch now res db' events

/-! ## Middleware response-finish handler and per-exchange flow -/

/-- The `res.on('finish')` handler of `ModrMiddleware.capture`
(lines 150–181): build the normalized record, then invoke
`this.captureController.captureRequest(requestData)` — one argument, so
the controller's `req` parameter receives the record and its `res`
parameter is `undefined`.  The handler's own try/catch logs any throw
(returned as the `Bool`). -/
def mwOnFinish (fs : Faults) (io : Notifier) (requestId : String) (now : Nat)
    (responseTime : Int) (memoryUsage : ℚ) (opts : MwOptions) (req : MwReq)
    (finalStatus : Int) (capturedBody : JsVal) (localsError : JsVal) (db : DB) :
    DB × List (String × EventData) × Bool :=
  let requestData : JsVal := .obj
    [ ("uuid", .str requestId.data)
      , ("method", .str req.method.data)
      , ("path", req.path.jsOr req.url)
      , ("controller", (optChainField req.route "path").jsOr req.path)
      , ("statusCode", .num finalStatus)
      , ("responseTime", .num responseTime)
      , ("memoryUsage", .num memoryUsage)
      , ("ipAddress", getClientIp req)
      , ("userAgent", hdrLookup req.headers "user-agent")
      , ("headers", .obj (mwSanitizeHeaders opts req.headers))
      , ("requestBody", prepareBody opts req.body)
      , ("responseBody", if opts.captureResponseBody then prepareBody opts capturedBody
                         else .nullV)
      , ("userId", (optChainField req.user "user_id").jsOr .nullV)
      , ("error", localsError.jsOr .nullV) ]
  match controllerCaptureRequest fs io requestId now requestData .undefV db with
  | (db', events, .ok _) => (db', events, false)
  | (db', events, .error _) => (db', events, true)

/-- One whole exchange through `ModrMiddleware.capture()` (lines 122–185):
`shouldCapture` is evaluated once, at request entry, against the response
status as it stands then (`entryStatus`); if it declines, `next()` is
returned without installing the finish handler.  Otherwise the finish
handler later fires with the final status.  The result marks whether the
finish handler ran (`some logged`) or capture was skipped (`none`). -/
def mwCaptureExchange (fs : Faults) (io : Notifier) (requestId : String) (now : Nat)
    (responseTime : Int) (memoryUsage : ℚ) (opts : MwOptions) (req : MwReq)
    (entryStatus finalStatus : Int) (capturedBody : JsVal) (localsError : JsVal)
    (db : DB) : DB × List (String × EventData) × Option Bool :=
  if ¬ shouldCapture opts req entryStatus then (db, [], none)
  else
    let (db', events, logged) := mwOnFinish fs io requestId now responseTime memoryUsage
      opts req finalStatus capturedBody localsError db
    (db', events, some logged)

/-! ## Lookup-or-create under concurrent first sighting

`getOrCreateMethod` / `getOrCreateStatus` are check-then-act: a `findOne`
round trip followed by a `create` round trip.  Under two concurrent first
sightings of the same natural key, the second session's `findOne` can
observe a database without the row while its `create` executes against a
database where the first session has already inserted it; the `UNIQUE`
constraint on the natural key then rejects the insert.  The functions
below are the same source code with the two round trips' database
observations separated, which is exactly what an interleaving of two
sessions produces. -/

/-- Model of `models.Method.create` as the database executes it: the `UNIQUE`
constraint on `methods.name` (raw_create_tables.sql line 37) rejects a
duplicate name. -/
def methodCreateUnique (db : DB) (methodName : JStr) :
    Except CapErr (MethodRow × DB) :=
  if db.methods.any (fun m => m.name = methodName) then .error .uniqueViolation
  else
    let method : MethodRow :=
      { method_id := db.methods.length + 1
        name := methodName
        description := "HTTP ".data ++ methodName ++ " method".data }
    .ok (method, { db with methods := db.methods ++ [method] })

/-- Model of `getOrCreateMethod` (lines 539–553) with its two round trips observing
the states a concurrent interleaving presents: `findOne` sees `dbAtFind`,
`create` executes against `dbAtCreate`.  The source wraps neither call in
a try/catch, so a uniqueness violation from the create propagates to the
caller. -/
def getOrCreateMethodRace (methodName : JStr) (dbAtFind dbAtCreate : DB) :
    Except CapErr (MethodRow × DB) :=
  match dbAtFind.methods.find? (fun m => m.name = methodName) with
  | some method => .ok (method, dbAtCreate)
  | none => methodCreateUnique dbAtCreate methodName

/-- Model of `models.Status.create` with the `UNIQUE` constraint on `status.code`
(raw_create_tables.sql line 29). -/
def statusCreateUnique (db : DB) (statusCode : Option Int) :
    Except CapErr (StatusRow × DB) :=
  if db.status.any (fun st => st.code = statusCode) then .error .uniqueViolation
  else
    let status : StatusRow :=
      { status_id := db.status.length + 1
        code := statusCode
        description := statusDescription statusCode }
    .ok (status, { db with status := db.status ++ [status] })

/-- Model of `getOrCreateStatus` (lines 555–579) under the same split observation. -/
def getOrCreateStatusRace (statusCode : Option Int) (dbAtFind dbAtCreate : DB) :
    Except CapErr (StatusRow × DB) :=
  match dbAtFind.status.find? (fun st => st.code = statusCode) with
  | some status => .ok (status, dbAtCreate)
  | none => statusCreateUnique dbAtCreate statusCode

/-! ## Concrete inputs used by the theorems -/

/-- A notifier whose emits always succeed. -/
def alwaysOkEmit : Notifier := some (fun _ => true)

/-- A notifier whose emits always throw. -/
def failingEmit : Notifier := some (fun _ => false)

/-- A fixed valid version-4 UUID. -/
def scenarioUuid : String := "a1b2c3d4-e5f6-4a7b-8c9d-0e1f2a3b4c5d"

/-- The spec's first scenario request: `POST /api/users`. -/
def scenarioReq : MwReq :=
  { method := "POST"
    path := .str "/api/users".data
    url := .str "/api/users".data
    originalUrl := .str "/api/users".data
    headers := [("user-agent", .str "jest".data), ("host", .str "localhost".data)] }

/-- Only-errors configuration (`configure({ onlyErrors: true })`). -/
def onlyErrorsOptions : MwOptions := { defaultMwOptions with onlyErrors := true }

/-- The spec's bypass-correctness request: `GET /api/orders`. -/
def ordersReq : MwReq :=
  { method := "GET"
    path := .str "/api/orders".data
    url := .str "/api/orders".data
    originalUrl := .str "/api/orders".data }

/-- The spec's second scenario as a normalized capture record:
`GET /api/widgets/999` returning 404 with error `{message: "not found"}`. -/
def data404 : ReqData :=
  { method := .str "GET".data
    path := .str "/api/widgets/999".data
    statusCode := .num 404
    uuid := .str scenarioUuid.data
    responseTime := .num 12
    headers := .obj [("user-agent", .str "jest".data)]
    error := .obj [("message", .str "not found".data)] }

/-! ## Theorems -/

/-- C1. The claim says a captured exchange (POST `/api/users`, 201,
45 ms, no body) ends in one persisted Request row and one `new_request`
event.  On the code it does not: the finish handler calls
`captureController.captureRequest(requestData)` with one argument, while
the controller's signature is `(req, res)` — the controller reads
`req.body.method` off the record (whose `body` is `undefined`), the
resulting TypeError lands in its catch block, whose `res.status(...)` call
throws again because `res` is `undefined`, and the middleware's own
try/catch swallows and logs it.  The database is untouched and no event is
emitted. -/
theorem c1_middleware_capture_persists_nothing :
    mwCaptureExchange noFaults alwaysOkEmit scenarioUuid 1000 45 12 defaultMwOptions
      scenarioReq 200 201 .nullV .undefV emptyDB = (emptyDB, [], some true) := rfl

/-- C2. The claim says the only-errors rule is evaluated against the
final response status, so an `/api/orders` exchange entering at the
default 200 and finishing at 500 is persisted.  On the code it is not:
`capture()` runs `shouldCapture` once at request entry against the entry
status (200), declines, and returns `next()` without installing the finish
handler — even though the same predicate at the final status 500 would
accept.  Nothing is persisted and no event is emitted. -/
theorem c2_only_errors_decided_at_entry :
    shouldCapture onlyErrorsOptions ordersReq 200 = false ∧
    shouldCapture onlyErrorsOptions ordersReq 500 = true ∧
    mwCaptureExchange noFaults alwaysOkEmit scenarioUuid 1000 45 12 onlyErrorsOptions
      ordersReq 200 500 .nullV .undefV emptyDB = (emptyDB, [], none) :=
  ⟨rfl, rfl, rfl⟩

/-- The Method row session A creates on first sighting of `GET`. -/
def getRow : MethodRow :=
  { method_id := 1
    name := "GET".data
    description := "HTTP ".data ++ "GET".data ++ " method".data }

/-- The database after session A's create of `GET`. -/
def dbWithGet : DB := { emptyDB with methods := [getRow] }

/-- The Status row session A creates on first sighting of code 200. -/
def status200Row : StatusRow :=
  { status_id := 1, code := some 200, description := statusDescription (some 200) }

/-- The database after session A's create of status 200. -/
def dbWithStatus200 : DB := { emptyDB with status := [status200Row] }

/-- C5. The claim says a uniqueness violation during the
lookup-or-create of a Method/Status row is caught, the now-existing row
re-read and returned as success.  On the code it is not: `getOrCreateMethod`
and `getOrCreateStatus` are a bare `findOne` followed by `create` with no
try/catch, so in the interleaving where both sessions' `findOne` miss and
session A creates first, session B's `create` surfaces the uniqueness
violation to the caller.  The claim's second half — the unique constraint
leaves at most one row per natural key — does hold, as the final conjunct
shows for any successful create. -/
theorem c5_unique_violation_surfaces_to_caller :
    getOrCreateMethodRace "GET".data emptyDB emptyDB = .ok (getRow, dbWithGet) ∧
    getOrCreateMethodRace "GET".data emptyDB dbWithGet = .error .uniqueViolation ∧
    getOrCreateStatusRace (some 200) emptyDB dbWithStatus200 = .error .uniqueViolation ∧
    (dbWithGet.methods.filter (fun m => m.name = "GET".data)).length = 1 ∧
    (∀ name : JStr, ∀ db m db', methodCreateUnique db name = .ok (m, db') →
      (db.methods.filter (fun r => r.name = name)).length = 0 ∧
      (db'.methods.filter (fun r => r.name = name)).length = 1) := by
  refine ⟨rfl, rfl, rfl, rfl, ?_⟩
  intro name db m db' h
  unfold methodCreateUnique at h
  split at h
  · exact absurd h (by simp)
  · rename_i hno
    have hno' : ∀ r ∈ db.methods, ¬ r.name = name := by simpa using hno
    have habs : db.methods.filter (fun r => r.name = name) = [] := by
      rw [List.filter_eq_nil_iff]
      intro r hr
      simpa using hno' r hr
    have hdb' : db' = { db with methods := db.methods ++ [⟨db.methods.length + 1,
        name, "HTTP ".data ++ name ++ " method".data⟩] } := by
      cases h; rfl
    constructor
    · simp [habs]
    · subst hdb'
      simp [List.filter_append, habs]

/-- C5 witness. The final conjunct of the race theorem applied to
session A's concrete create from the empty database. -/
theorem c5_unique_violation_surfaces_to_caller_witness :
    (emptyDB.methods.filter (fun r => r.name = "GET".data)).length = 0 ∧
    (dbWithGet.methods.filter (fun r => r.name = "GET".data)).length = 1 :=
  c5_unique_violation_surfaces_to_caller.2.2.2.2 "GET".data emptyDB getRow dbWithGet rfl

/-- Model of `captureException` invoked with a request-id *string* in place of its
data object: `'…'.requestId` is `undefined`, validation fails, and the
result is `{success: false}` with the database untouched.  This is exactly
the call `executeCapture` makes at step 7. -/
theorem captureExceptionApi_on_string (s : JStr) (db : DB) :
    captureExceptionApi (.str s) db = (false, db) := rfl

/-- Model of `getOrCreateMethod` never touches the exceptions table. -/
theorem getOrCreateMethod_exceptions {fs m db n x db' n'}
    (h : getOrCreateMethod fs m db n = .ok (x, db', n')) :
    db'.exceptions = db.exceptions := by
  unfold getOrCreateMethod at h
  split at h
  · cases h
  · split at h
    · simp only [Except.ok.injEq, Prod.mk.injEq] at h
      obtain ⟨-, h2, -⟩ := h
      rw [← h2]
    · split at h
      · cases h
      · simp only [Except.ok.injEq, Prod.mk.injEq] at h
        obtain ⟨-, h2, -⟩ := h
        rw [← h2]

/-- Model of `getOrCreateStatus` never touches the exceptions table. -/
theorem getOrCreateStatus_exceptions {fs sc db n x db' n'}
    (h : getOrCreateStatus fs sc db n = .ok (x, db', n')) :
    db'.exceptions = db.exceptions := by
  unfold getOrCreateStatus at h
  split at h
  · cases h
  · split at h
    · simp only [Except.ok.injEq, Prod.mk.injEq] at h
      obtain ⟨-, h2, -⟩ := h
      rw [← h2]
    · split at h
      · cases h
      · simp only [Except.ok.injEq, Prod.mk.injEq] at h
        obtain ⟨-, h2, -⟩ := h
        rw [← h2]

/-- Model of `createPayload` never touches the exceptions table. -/
theorem createPayload_exceptions {fs data db n x db' n'}
    (h : createPayload fs data db n = .ok (x, db', n')) :
    db'.exceptions = db.exceptions := by
  unfold createPayload at h
  split at h
  · cases h
  · simp only [Except.ok.injEq, Prod.mk.injEq] at h
    obtain ⟨-, h2, -⟩ := h
    rw [← h2]

/-- Model of `createResponse` never touches the exceptions table. -/
theorem createResponse_exceptions {fs data db n x db' n'}
    (h : createResponse fs data db n = .ok (x, db', n')) :
    db'.exceptions = db.exceptions := by
  unfold createResponse at h
  split at h
  · cases h
  · simp only [Except.ok.injEq, Prod.mk.injEq] at h
    obtain ⟨-, h2, -⟩ := h
    rw [← h2]

/-- Model of `createMainRequest` never touches the exceptions table. -/
theorem createMainRequest_exceptions {fs now data mi si pi ri db n x db' n'}
    (h : createMainRequest fs now data mi si pi ri db n = .ok (x, db', n')) :
    db'.exceptions = db.exceptions := by
  unfold createMainRequest at h
  split at h
  · cases h
  · simp only [Except.ok.injEq, Prod.mk.injEq] at h
    obtain ⟨-, h2, -⟩ := h
    rw [← h2]

/-- The join insert never touches the exceptions table. -/
theorem insertRequestHeader_exceptions (db : DB) (rid : String) (hid : Nat) :
    (insertRequestHeader db rid hid).exceptions = db.exceptions := by
  unfold insertRequestHeader
  split <;> rfl

/-- The header loop never touches the exceptions table. -/
theorem processHeadersLoop_exceptions {fs rid headers} :
    ∀ {names : List String} {db n db' n'},
    processHeadersLoop fs rid headers names db n = .ok (db', n') →
    db'.exceptions = db.exceptions := by
  intro names
  induction names with
  | nil =>
      intro db n db' n' h
      unfold processHeadersLoop at h
      simp only [Except.ok.injEq, Prod.mk.injEq] at h
      rw [← h.1]
  | cons name rest ih =>
      intro db n db' n' h
      unfold processHeadersLoop at h
      split at h
      · exact ih h
      · split at h
        · cases h
        · split at h
          · split at h
            · cases h
            · rw [ih h, insertRequestHeader_exceptions]
          · split at h
            · cases h
            · split at h
              · cases h
              · rw [ih h, insertRequestHeader_exceptions]

/-- Model of `processHeaders` never touches the exceptions table. -/
theorem processHeaders_exceptions {fs rid headers db n db' n'}
    (h : processHeaders fs rid headers db n = .ok (db', n')) :
    db'.exceptions = db.exceptions := by
  unfold processHeaders at h
  split at h
  · simp only [Except.ok.injEq, Prod.mk.injEq] at h
    rw [← h.1]
  · exact processHeadersLoop_exceptions h

/-- The staged database of a successful transaction carries exactly the
exceptions of the database it started from: step 7's `captureException`
call receives the request-id string and fails validation. -/
theorem capTx_exceptions {fs now data dbC db staged request method status}
    (h : capTx fs now data dbC db = .ok (staged, request, method, status)) :
    staged.exceptions = db.exceptions := by
  unfold capTx at h
  split at h
  · cases h
  · rename_i method' db₁ n₁ heq₁
    split at h
    · cases h
    · rename_i status' db₂ n₂ heq₂
      split at h
      · cases h
      · rename_i pid db₃ n₃ heq₃
        split at h
        · cases h
        · rename_i rid db₄ n₄ heq₄
          split at h
          · cases h
          · rename_i request' db₅ n₅ heq₅
            split at h
            · cases h
            · rename_i db₆ n₆ heq₆
              have h₁ := getOrCreateMethod_exceptions heq₁
              have h₂ := getOrCreateStatus_exceptions heq₂
              have h₃ : db₃.exceptions = db₂.exceptions := by
                split at heq₃
                · split at heq₃
                  · cases heq₃
                  · rename_i p db' n' hp
                    simp only [Except.ok.injEq, Prod.mk.injEq] at heq₃
                    obtain ⟨-, hdb, -⟩ := heq₃
                    rw [← hdb]
                    exact createPayload_exceptions hp
                · simp only [Except.ok.injEq, Prod.mk.injEq] at heq₃
                  obtain ⟨-, hdb, -⟩ := heq₃
                  rw [← hdb]
              have h₄ : db₄.exceptions = db₃.exceptions := by
                split at heq₄
                · split at heq₄
                  · cases heq₄
                  · rename_i r db' n' hr
                    simp only [Except.ok.injEq, Prod.mk.injEq] at heq₄
                    obtain ⟨-, hdb, -⟩ := heq₄
                    rw [← hdb]
                    exact createResponse_exceptions hr
                · simp only [Except.ok.injEq, Prod.mk.injEq] at heq₄
                  obtain ⟨-, hdb, -⟩ := heq₄
                  rw [← hdb]
              have h₅ := createMainRequest_exceptions heq₅
              have h₆ := processHeaders_exceptions heq₆
              have hstaged : staged = db₆ := by
                split at h <;>
                  (simp only [Except.ok.injEq, Prod.mk.injEq] at h; exact h.1.symm)
              rw [hstaged, h₆, h₅, h₄, h₃, h₂, h₁]

/-- The visible database after `executeCapture` carries exactly the
exceptions the caller's database had, on success and on failure alike. -/
theorem executeCapture_exceptions (fs : Faults) (io : Notifier) (now : Nat)
    (data : ValidData) (db : DB) :
    ((executeCapture fs io now data db).1).exceptions = db.exceptions := by
  unfold executeCapture
  cases hcap : capTx fs now data db db with
  | error e => rfl
  | ok tup =>
      obtain ⟨staged, request, method, status⟩ := tup
      have hst := capTx_exceptions hcap
      rcases hemit : emitRequestEvent io request method status with ⟨events, b⟩
      dsimp only
      rw [hemit]
      cases b <;> simpa using hst

/-- C3. The claim says a capture whose data carries an error with a
message inserts exactly one Exception row (with type defaulted to
`business` for a 404) inside the transaction.  On the code, no Exception
row is ever inserted by the capture path: `executeCapture` invokes
`captureException(request.request_id, data.error, transaction)` against
the one-argument signature `captureException(exceptionData)`, so the
request-id string arrives as the data object, its validation fails
(the `requestId` property of a string is `undefined`), and the
`{success:false}` result is discarded.  First conjunct: *every* capture
leaves the exceptions table exactly as it found it.  Second conjunct: the
spec's 404 scenario concretely yields a committed Request row, both
events — and zero Exception rows. -/
theorem c3_capture_inserts_no_exception_row :
    (∀ fs io genUuid now d db,
      ((svcCaptureRequest fs io genUuid now d db).2.1).exceptions = db.exceptions) ∧
    ((svcCaptureRequest noFaults alwaysOkEmit "gen" 1000 data404 emptyDB).1.isSuccess = true ∧
     (svcCaptureRequest noFaults alwaysOkEmit "gen" 1000 data404 emptyDB).2.1.requests.length = 1 ∧
     (svcCaptureRequest noFaults alwaysOkEmit "gen" 1000 data404 emptyDB).2.1.exceptions = [] ∧
     (svcCaptureRequest noFaults alwaysOkEmit "gen" 1000 data404 emptyDB).2.2.map Prod.fst
       = ["modr:new_request", "modr:error_request"]) := by
  constructor
  · intro fs io genUuid now d db
    simp only [svcCaptureRequest]
    split
    · rfl
    · have h := executeCapture_exceptions fs io now
        (sanitizeRequestData (validateRequestData genUuid d).data) db
      rcases hx : executeCapture fs io now
        (sanitizeRequestData (validateRequestData genUuid d).data) db with ⟨db2, ev, res⟩
      rw [hx] at h
      cases res <;> simpa using h
  · refine ⟨?_, ?_, ?_, ?_⟩ <;> rfl

/-- The sanitized, validated form of the 404 scenario record. -/
def vd404 : ValidData := sanitizeRequestData (validateRequestData "gen" data404).data

/-- A fault oracle failing the third database round trip of the
transaction (the `findOne` of `getOrCreateStatus`). -/
def faultAtStatusFind : Faults := fun n => n = 2

/-- C4. If any of steps 1–7 of the capture transaction throws, the
transaction is rolled back completely: `executeCapture` returns the
caller's database unchanged — so no Request, Payload, Response,
header-join, or Exception row from that capture remains visible — with no
event emitted and the error rethrown.  The fault oracle `fs` may fail any
database round trip of steps 1–7, covering in particular a failure after
the Request row was staged. -/
theorem c4_rollback_on_step_failure :
    ∀ (fs : Faults) (io : Notifier) (now : Nat) (data : ValidData) (db : DB) (e : CapErr),
      capTx fs now data db db = .error e →
      executeCapture fs io now data db = (db, [], .error e) := by
  intro fs io now data db e h
  unfold executeCapture
  rw [h]

/-- C4 witness. A concrete fault at the status lookup (after the
method row was already staged) makes the transaction fail; the rollback
theorem applied there returns the untouched empty database. -/
theorem c4_rollback_on_step_failure_witness :
    capTx faultAtStatusFind 1000 vd404 emptyDB emptyDB = .error (.dbFault 2) ∧
    executeCapture faultAtStatusFind alwaysOkEmit 1000 vd404 emptyDB
      = (emptyDB, [], .error (.dbFault 2)) :=
  ⟨by rfl,
   c4_rollback_on_step_failure faultAtStatusFind alwaysOkEmit 1000 vd404 emptyDB
     (.dbFault 2) (by rfl)⟩

/-- C6. The claim says the event is emitted only after the commit
(true: a failed transaction emits nothing — third conjunct), that an
absent notifier is a no-op (true: second conjunct), and that a notifier
failure is not reported as a capture failure by `captureRequest`.  That
last part is false on the code: `emitRequestEvent` has no try/catch, so a
throwing `io.emit` lands in `executeCapture`'s catch — whose
`transaction.rollback()` on the already-committed transaction throws
again — and `captureRequest` returns `{success: false}` even though the
Request row stands committed (first conjunct: failure reported, one
committed row, no delivered event; the write is not retried — the
database holds exactly one row). -/
theorem c6_notifier_failure_reported_as_capture_failure :
    ((svcCaptureRequest noFaults failingEmit "gen" 1000 data404 emptyDB).1.isSuccess = false ∧
     (svcCaptureRequest noFaults failingEmit "gen" 1000 data404 emptyDB).2.1.requests.length = 1 ∧
     (svcCaptureRequest noFaults failingEmit "gen" 1000 data404 emptyDB).2.2 = []) ∧
    ((svcCaptureRequest noFaults none "gen" 1000 data404 emptyDB).1.isSuccess = true ∧
     (svcCaptureRequest noFaults none "gen" 1000 data404 emptyDB).2.2 = []) ∧
    (∀ (fs : Faults) (io : Notifier) (now : Nat) (data : ValidData) (db : DB) (e : CapErr),
      capTx fs now data db db = .error e →
      (executeCapture fs io now data db).2.1 = []) := by
  refine ⟨⟨?_, ?_, ?_⟩, ⟨?_, ?_⟩, ?_⟩
  · rfl
  · rfl
  · rfl
  · rfl
  · rfl
  · intro fs io now data db e h
    unfold executeCapture
    rw [h]

/-- C6 witness. The only-after-commit conjunct applied to the concrete
failing transaction: no event is delivered. -/
theorem c6_notifier_failure_reported_as_capture_failure_witness :
    (executeCapture faultAtStatusFind alwaysOkEmit 1000 vd404 emptyDB).2.1 = [] :=
  c6_notifier_failure_reported_as_capture_failure.2.2 faultAtStatusFind alwaysOkEmit
    1000 vd404 emptyDB (.dbFault 2) (by rfl)

/-- The conflict-ignoring join insert keeps at most one row per pair. -/
theorem count_insertRequestHeader (db : DB) (rid : String) (hid : Nat)
    (p : String × Nat) (h : db.request_headers.count p ≤ 1) :
    ((insertRequestHeader db rid hid).request_headers).count p ≤ 1 := by
  unfold insertRequestHeader
  split
  · exact h
  · rename_i hmem
    simp only [List.count_append]
    by_cases hp : p = (rid, hid)
    · subst hp
      rw [List.count_eq_zero_of_not_mem hmem]
      simp
    · have hz : List.count p [(rid, hid)] = 0 :=
        List.count_eq_zero.mpr (by simp [hp])
      omega

/-- The header loop preserves the at-most-one-row-per-pair invariant of
the join table. -/
theorem processHeadersLoop_count {fs rid headers} :
    ∀ {names : List String} {db n db' n'},
    processHeadersLoop fs rid headers names db n = .ok (db', n') →
    ∀ p, db.request_headers.count p ≤ 1 → db'.request_headers.count p ≤ 1 := by
  intro names
  induction names with
  | nil =>
      intro db n db' n' h p hp
      unfold processHeadersLoop at h
      simp only [Except.ok.injEq, Prod.mk.injEq] at h
      rw [← h.1]
      exact hp
  | cons name rest ih =>
      intro db n db' n' h p hp
      unfold processHeadersLoop at h
      split at h
      · exact ih h p hp
      · split at h
        · cases h
        · split at h
          · split at h
            · cases h
            · exact ih h p (count_insertRequestHeader db rid _ p hp)
          · split at h
            · cases h
            · split at h
              · cases h
              · exact ih h p (count_insertRequestHeader _ rid _ p hp)

/-- With no database fault the header loop always succeeds (the conflict
on the composite key is silently ignored, never an error). -/
theorem processHeadersLoop_noFaults_ok {rid headers} :
    ∀ (names : List String) (db : DB) (n : Nat),
    ∃ db' n', processHeadersLoop noFaults rid headers names db n = .ok (db', n') := by
  intro names
  induction names with
  | nil => intro db n; exact ⟨db, n, rfl⟩
  | cons name rest ih =>
      intro db n
      unfold processHeadersLoop
      split
      · exact ih db n
      · simp only [noFaults, if_neg, Bool.false_eq_true, not_false_eq_true, if_false]
        split
        · exact ih _ _
        · exact ih _ _

/-- C9. A Request's recorded headers form a set.  First conjunct: the
`ON CONFLICT DO NOTHING` join insert is idempotent.  Second conjunct:
any successful `processHeaders` run — first capture or retried capture,
with or without injected faults — preserves "at most one
`(request_id, header_id)` row per pair".  Third conjunct: absent database
faults, `processHeaders` never fails, so the conflict is ignored rather
than surfaced as an error. -/
theorem c9_header_join_is_a_set :
    (∀ (db : DB) (rid : String) (hid : Nat),
      insertRequestHeader (insertRequestHeader db rid hid) rid hid
        = insertRequestHeader db rid hid) ∧
    (∀ (fs : Faults) (rid : String) (headers : JsVal) (db : DB) (n : Nat)
        (db' : DB) (n' : Nat),
      processHeaders fs rid headers db n = .ok (db', n') →
      ∀ p, db.request_headers.count p ≤ 1 → db'.request_headers.count p ≤ 1) ∧
    (∀ (rid : String) (headers : JsVal) (db : DB) (n : Nat),
      ∃ db' n', processHeaders noFaults rid headers db n = .ok (db', n')) := by
  refine ⟨?_, ?_, ?_⟩
  · intro db rid hid
    unfold insertRequestHeader
    split
    · rename_i hmem
      simp [hmem]
    · rename_i hmem
      have : (rid, hid) ∈ db.request_headers ++ [(rid, hid)] := by simp
      simp [this]
  · intro fs rid headers db n db' n' h p hp
    unfold processHeaders at h
    split at h
    · simp only [Except.ok.injEq, Prod.mk.injEq] at h
      rw [← h.1]
      exact hp
    · exact processHeadersLoop_count h p hp
  · intro rid headers db n
    unfold processHeaders
    split
    · exact ⟨db, n, rfl⟩
    · exact processHeadersLoop_noFaults_ok importantHeaders db n

/-- The header map of the 404 scenario, as `processHeaders` receives it. -/
def hdrs9 : JsVal := .obj [("user-agent", .str "jest".data)]

/-- The database state after one `processHeaders` run of `hdrs9` against
the empty database: one Header row and one join row. -/
def db9 : DB :=
  { emptyDB with
      headers := [{ header_id := 1, name := "user-agent"
                    description := "user-agent".data ++ " header".data }]
      request_headers := [("r1", 1)] }

/-- C9 witness. The invariant conjunct applied to a concrete run:
one capture of the scenario headers against the empty database keeps at
most one join row for the pair. -/
theorem c9_header_join_is_a_set_witness :
    emptyDB.request_headers.count ("r1", 1) ≤ 1 ∧
    db9.request_headers.count ("r1", 1) ≤ 1 :=
  ⟨by decide,
   c9_header_join_is_a_set.2.1 noFaults "r1" hdrs9 emptyDB 0 db9 3 (by rfl)
     ("r1", 1) (by decide)⟩

/-- The credential-bearing header names `ModrMiddleware.sanitizeHeaders`
deletes. -/
def excludedHeaderKeys : List String :=
  ["authorization", "cookie", "set-cookie", "x-api-key"]

/-- The folded deletes of `mwSanitizeHeaders` amount to one filter
dropping the excluded keys. -/
theorem mwSanitizeHeaders_eq_filter (opts : MwOptions)
    (hdrs : List (String × JsVal)) :
    mwSanitizeHeaders opts hdrs =
      if opts.captureHeaders then
        hdrs.filter (fun kv => ¬ kv.1 ∈ excludedHeaderKeys)
      else [] := by
  unfold mwSanitizeHeaders
  by_cases hc : opts.captureHeaders
  · simp only [hc, not_true_eq_false, if_neg, if_pos, Bool.not_eq_true]
    show ((((hdrs.filter _).filter _).filter _).filter _) = _
    simp only [List.filter_filter]
    apply List.filter_congr
    intro kv _
    have h1 : strToLower "authorization" = "authorization" := by decide
    have h2 : strToLower "cookie" = "cookie" := by decide
    have h3 : strToLower "set-cookie" = "set-cookie" := by decide
    have h4 : strToLower "x-api-key" = "x-api-key" := by decide
    simp only [h1, h2, h3, h4, excludedHeaderKeys, List.mem_cons, List.not_mem_nil,
      or_false]
    by_cases k1 : kv.1 = "authorization" <;>
      by_cases k2 : kv.1 = "cookie" <;>
        by_cases k3 : kv.1 = "set-cookie" <;>
          by_cases k4 : kv.1 = "x-api-key" <;>
            simp [k1, k2, k3, k4]
  · simp [hc]

/-- C10. The header map the middleware passes onward for persistence
never contains the keys `authorization`, `cookie`, `set-cookie` or
`x-api-key` (first four conjuncts), and it is a function of the remaining
headers only — so the stored header data is independent of the
credential-bearing headers' values (last conjunct). -/
theorem c10_credential_headers_removed (opts : MwOptions)
    (hdrs : List (String × JsVal)) :
    (mwSanitizeHeaders opts hdrs).find? (fun kv => kv.1 = "authorization") = none ∧
    (mwSanitizeHeaders opts hdrs).find? (fun kv => kv.1 = "cookie") = none ∧
    (mwSanitizeHeaders opts hdrs).find? (fun kv => kv.1 = "set-cookie") = none ∧
    (mwSanitizeHeaders opts hdrs).find? (fun kv => kv.1 = "x-api-key") = none ∧
    mwSanitizeHeaders opts hdrs
      = mwSanitizeHeaders opts (hdrs.filter (fun kv => ¬ kv.1 ∈ excludedHeaderKeys)) := by
  have hnone : ∀ k, k ∈ excludedHeaderKeys →
      (mwSanitizeHeaders opts hdrs).find? (fun kv => kv.1 = k) = none := by
    intro k hk
    rw [mwSanitizeHeaders_eq_filter]
    split
    · rw [List.find?_eq_none]
      intro kv hkv
      have hfil := (List.mem_filter.mp hkv).2
      simp only [decide_not, Bool.not_eq_true', decide_eq_false_iff_not] at hfil
      simp only [decide_eq_true_eq]
      intro heq
      exact hfil (heq ▸ hk)
    · rfl
  refine ⟨hnone _ (by decide), hnone _ (by decide), hnone _ (by decide),
    hnone _ (by decide), ?_⟩
  rw [mwSanitizeHeaders_eq_filter, mwSanitizeHeaders_eq_filter]
  split
  · rw [List.filter_filter]
    apply List.filter_congr
    intro kv _
    simp
  · rfl

/-- A minimal valid capture record (`GET /x`), the baseline for the
duration-validation theorems. -/
def base8 : ReqData := { method := .str "GET".data, path := .str "/x".data }

/-- With the baseline fields fixed, the validation errors are exactly the
duration clause's errors. -/
theorem base8_errors (rt du : JsVal) :
    (validateRequestData "gen" { base8 with responseTime := rt, duration := du }).errors
      = (vDuration rt du).1 := by
  show ((((((((((([] ++ []) ++ []) ++ []) ++ []) ++ (vDuration rt du).1)
      ++ []) ++ []) ++ []) ++ []) ++ []) ++ []) = (vDuration rt du).1
  simp

/-- With the baseline fields fixed, the validated duration is the duration
clause's value. -/
theorem base8_duration (rt du : JsVal) :
    (validateRequestData "gen" { base8 with responseTime := rt, duration := du }).data.duration
      = (vDuration rt du).2 := rfl

/-- C8 counterexample. The claim says validation rejects every
duration ≥ 300000 ms and accepts every non-negative number strictly below
the cap.  Both directions fail at the boundary conditions: the source
guard is `duration < 0 || duration > 300000`, so 300000 itself is
accepted (first two conjuncts), and `data.responseTime || data.duration`
coalesces a falsy `responseTime` of 0 into the absent `duration`, which is
then rejected (third conjunct). -/
theorem c8_counterexample :
    (validateRequestData "gen" { base8 with duration := .num 300000 }).errors = [] ∧
    (validateRequestData "gen" { base8 with duration := .num 300000 }).data.duration = 300000 ∧
    (validateRequestData "gen" { base8 with responseTime := .num 0 }).errors
      = ["duration must be a non-negative number less than 300000ms"] := by
  refine ⟨?_, ?_, ?_⟩ <;> rfl

/-- C8 (amended). For a capture input supplying `responseTime` or
`duration`, the checked value is `responseTime` when truthy, else
`duration`; validation accepts exactly the numbers `0 ≤ d ≤ 300000`
(the cap is inclusive: 300000 is accepted, and a `responseTime` of 0
without a `duration` falls back to the absent field and is rejected), and
every accepted value is stored as `Math.round` of itself. -/
theorem c8_duration_validation (rt du : JsVal)
    (hsup : ¬ (rt.isUndefV = true ∧ du.isUndefV = true)) :
    ((validateRequestData "gen" { base8 with responseTime := rt, duration := du }).errors = []
       ↔ ∃ q : ℚ, rt.jsOr du = .num q ∧ 0 ≤ q ∧ q ≤ 300000) ∧
    (∀ q : ℚ, rt.jsOr du = .num q → 0 ≤ q → q ≤ 300000 →
       (validateRequestData "gen"
           { base8 with responseTime := rt, duration := du }).data.duration = jsRound q) := by
  have hcond : ¬ rt.isUndefV = true ∨ ¬ du.isUndefV = true := by tauto
  constructor
  · rw [base8_errors]
    unfold vDuration
    rw [if_pos hcond]
    rcases hj : rt.jsOr du with _ | _ | b | q | s | fs | xs
    · simp
    · simp
    · simp
    · dsimp only
      constructor
      · intro hnil
        by_cases hr : q < 0 ∨ q > 300000
        · rw [if_pos hr] at hnil
          cases hnil
        · push_neg at hr
          exact ⟨q, rfl, by linarith [hr.1], hr.2⟩
      · rintro ⟨q', hq', h0, h3⟩
        rw [JsVal.num.injEq] at hq'
        subst hq'
        rw [if_neg (by push_neg; exact ⟨by linarith, by linarith⟩)]
    · simp
    · simp
    · simp
  · intro q hq h0 h3
    rw [base8_duration]
    unfold vDuration
    rw [if_pos hcond, hq]
    dsimp only
    rw [if_neg (by push_neg; exact ⟨by linarith, by linarith⟩)]

/-- C8 witness. The amended theorem applied to a concrete supplied
`responseTime` of 45 ms: accepted and stored as `Math.round 45 = 45`. -/
theorem c8_duration_validation_witness :
    (validateRequestData "gen"
        { base8 with responseTime := .num 45, duration := .undefV }).data.duration
      = jsRound 45 ∧ jsRound 45 = 45 :=
  ⟨(c8_duration_validation (.num 45) .undefV (by decide)).2 45 rfl
      (by norm_num) (by norm_num),
   by rfl⟩

/-- Every escaped character renders to at most 6 characters. -/
theorem escChar_length_le (c : Char) : (escChar c).length ≤ 6 := by
  unfold escChar
  repeat' split
  all_goals simp

/-- A serialized string literal has at most `2 + 6 · n` characters. -/
theorem stringifyStr_length_le (s : JStr) :
    (stringifyStr s).length ≤ 2 + 6 * s.length := by
  unfold stringifyStr
  induction s with
  | nil => simp
  | cons c cs ih =>
      simp only [List.map_cons, List.flatten_cons, List.length_cons,
        List.append_assoc, List.length_append] at *
      have := escChar_length_le c
      omega

/-- Each character is at least one UTF-8 byte. -/
theorem length_le_utf8Len (s : JStr) : s.length ≤ utf8Len s := by
  unfold utf8Len
  induction s with
  | nil => simp
  | cons c cs ih =>
      simp only [List.map_cons, List.sum_cons, List.length_cons]
      have := c.utf8Size_pos
      omega

/-- Each character is at most four UTF-8 bytes. -/
theorem utf8Len_le_four_mul (s : JStr) : utf8Len s ≤ 4 * s.length := by
  unfold utf8Len
  induction s with
  | nil => simp
  | cons c cs ih =>
      simp only [List.map_cons, List.sum_cons, List.length_cons]
      have := c.utf8Size_le_four
      omega

/-- The UTF-8 byte length of a character run. -/
theorem utf8Len_replicate (n : Nat) (c : Char) :
    utf8Len (List.replicate n c) = n * c.utf8Size := by
  unfold utf8Len
  rw [List.map_replicate, List.sum_replicate, smul_eq_mul]

/-- At most `k` decimal digits below `10 ^ k` (for `k ≥ 1`). -/
theorem natDigits_length_le : ∀ (k n : Nat), 1 ≤ k → n < 10 ^ k →
    (natDigits n).length ≤ k := by
  intro k
  induction k with
  | zero => omega
  | succ k ih =>
      intro n _ hn
      unfold natDigits
      split
      · simp
      · rename_i h10
        rcases Nat.eq_zero_or_pos k with hk | hk
        · subst hk
          simp at hn
          omega
        · have hdiv : n / 10 < 10 ^ k := by
            rw [Nat.div_lt_iff_lt_mul (by omega)]
            calc n < 10 ^ (k + 1) := hn
            _ = 10 ^ k * 10 := by ring
          have := ih (n / 10) hk hdiv
          simp only [List.length_append, List.length_cons, List.length_nil]
          omega

/-- The truncation marker `prepareBody` builds for an oversized body. -/
def truncationMarker (body : JsVal) : JsVal :=
  .obj [("_modr_truncated", .boolV true),
        ("_size", .num (utf8Len (bodyToStr body))),
        ("_preview", .str ((bodyToStr body).take 500 ++ "...".data))]

/-- On a body whose serialized form exceeds the default 100000-byte limit,
`prepareBody` produces the truncation marker. -/
theorem prepareBody_of_big (body : JsVal)
    (hbig : utf8Len (bodyToStr body) > 100000) :
    prepareBody defaultMwOptions body = truncationMarker body := by
  have htr : body.truthy = true := by
    cases body with
    | undefV => revert hbig; decide
    | nullV => revert hbig; decide
    | boolV b =>
        cases b
        · revert hbig; decide
        · rfl
    | num q =>
        by_cases hq : q = 0
        · subst hq
          exfalso
          have hden0 : (0 : ℚ).den = 1 := by simp
          have hnum0 : (0 : ℚ).num = 0 := by simp
          have hz : bodyToStr (JsVal.num 0) = ['0'] := by
            show ratRender 0 = ['0']
            unfold ratRender intRender
            rw [if_pos hden0, hnum0, if_neg (by omega)]
            rw [show ((0 : Int).natAbs) = 0 by simp]
            unfold natDigits
            rw [if_pos (by norm_num)]
          rw [hz] at hbig
          revert hbig
          decide
        · simp [JsVal.truthy, hq]
    | str s =>
        cases s with
        | nil => revert hbig; decide
        | cons c cs => simp [JsVal.truthy]
    | obj fs => rfl
    | arr xs => rfl
  unfold prepareBody truncationMarker
  rw [if_neg (by simp [htr])]
  dsimp only [defaultMwOptions]
  rw [if_pos hbig]

/-- Model of `sanitizeJsonData` passes a truthy value through when its JSON
serialization is within the 100000-character limit. -/
theorem sanitizeJsonData_keeps (v : JsVal) (ht : v.truthy = true)
    (hlen : (stringify v).length ≤ 100000) :
    sanitizeJsonData v = v := by
  unfold sanitizeJsonData
  rw [if_neg (by simp [ht])]
  rw [if_neg (by omega)]

/-- The serialized truncation marker is tiny: at most 3080 characters for
any preview of at most 503 characters and any size below `10 ^ 15`. -/
theorem stringify_truncationMarker_le (body : JsVal)
    (hsize : utf8Len (bodyToStr body) < 10 ^ 15) :
    (stringify (truncationMarker body)).length ≤ 3080 := by
  have h3dots : ("...".data).length = 3 := by decide
  have hpv : ((bodyToStr body).take 500 ++ "...".data).length ≤ 503 := by
    rw [List.length_append, List.length_take, h3dots]
    have := min_le_left 500 (bodyToStr body).length
    omega
  have hdig : (natDigits (utf8Len (bodyToStr body))).length ≤ 15 :=
    natDigits_length_le 15 _ (by omega) hsize
  have hrr : ratRender ((utf8Len (bodyToStr body) : ℚ)) =
      natDigits (utf8Len (bodyToStr body)) := by
    unfold ratRender intRender
    rw [Rat.den_natCast, Rat.num_natCast]
    rw [if_pos rfl, if_neg (by omega)]
    rw [Int.natAbs_ofNat]
  have hfields : stringify (truncationMarker body) =
      '\x7b' :: List.intercalate [',']
        [stringifyStr "_modr_truncated".data ++ ':' :: stringify (.boolV true),
         stringifyStr "_size".data ++ ':' :: ratRender ((utf8Len (bodyToStr body) : ℚ)),
         stringifyStr "_preview".data
           ++ ':' :: stringifyStr ((bodyToStr body).take 500 ++ "...".data)]
        ++ ['\x7d'] := rfl
  have hinter : ∀ (a b c : JStr),
      (List.intercalate [','] [a, b, c]).length = a.length + b.length + c.length + 2 := by
    intro a b c
    simp [List.intercalate, List.intersperse]
    omega
  have h1 : (stringifyStr "_modr_truncated".data ++ ':' :: stringify (.boolV true)).length
      = 22 := by decide
  have h2 : (stringifyStr "_size".data ++ ':' :: natDigits (utf8Len (bodyToStr body))).length
      = 8 + (natDigits (utf8Len (bodyToStr body))).length := by
    rw [List.length_append, List.length_cons]
    have h7 : (stringifyStr "_size".data).length = 7 := by decide
    omega
  have h3 : (stringifyStr "_preview".data
        ++ ':' :: stringifyStr ((bodyToStr body).take 500 ++ "...".data)).length
      = 11 + (stringifyStr ((bodyToStr body).take 500 ++ "...".data)).length := by
    rw [List.length_append, List.length_cons]
    have h10 : (stringifyStr "_preview".data).length = 10 := by decide
    omega
  have h4 := stringifyStr_length_le ((bodyToStr body).take 500 ++ "...".data)
  rw [hfields, hrr, List.length_append, List.length_cons, hinter, h1, h2, h3,
    List.length_singleton]
  omega

/-- C7 counterexample. The claim says the stored truncation marker
carries a text preview of *at most 500 characters*.  For a 100001-byte
body the stored `_preview` is the first 500 characters followed by the
three-character `'...'` suffix — 503 characters. -/
theorem c7_counterexample :
    (prepareBody defaultMwOptions (.str (List.replicate 100001 'a'))).getField "_preview"
      = .str (List.replicate 500 'a' ++ "...".data) ∧
    (List.replicate 500 'a' ++ "...".data).length = 503 := by
  have hbig : utf8Len (bodyToStr (.str (List.replicate 100001 'a'))) > 100000 := by
    show utf8Len (List.replicate 100001 'a') > 100000
    rw [utf8Len_replicate]
    decide
  rw [prepareBody_of_big _ hbig]
  constructor
  · show JsVal.str ((List.replicate 100001 'a').take 500 ++ "...".data) = _
    rw [JsVal.str.injEq, List.take_replicate]
    norm_num
  · rw [List.length_append, List.length_replicate]
    decide

/-- C7 (amended). For every request body whose serialized form exceeds
the default 100000-byte limit (and is JS-representable, below `10^15`
bytes), the value the pipeline stores in the Payload is the truncation
marker — carrying the original byte length in `_size` and a preview of the
first 500 characters plus a `'...'` suffix (at most 503 characters) in
`_preview` — and not the raw oversized body; the size-capped marker passes
`sanitizeJsonData` unchanged and the body clause of validation accepts it,
so the capture is not rejected on account of the size. -/
theorem c7_oversized_body_truncation (body : JsVal)
    (hbig : utf8Len (bodyToStr body) > 100000)
    (hrepr : utf8Len (bodyToStr body) < 10 ^ 15) :
    prepareBody defaultMwOptions body = truncationMarker body ∧
    ((bodyToStr body).take 500 ++ "...".data).length ≤ 503 ∧
    truncationMarker body ≠ body ∧
    sanitizeJsonData (truncationMarker body) = truncationMarker body ∧
    (vBody (truncationMarker body)
      "requestBody must be valid JSON if provided as string").1 = [] := by
  have hmark := stringify_truncationMarker_le body hrepr
  refine ⟨prepareBody_of_big body hbig, ?_, ?_, ?_, rfl⟩
  · have h3dots : ("...".data).length = 3 := by decide
    rw [List.length_append, List.length_take, h3dots]
    have := min_le_left 500 (bodyToStr body).length
    omega
  · intro heq
    have hobj : bodyToStr body = stringify body := by
      rw [← heq]
      rfl
    have h1 : utf8Len (stringify body) > 100000 := by rw [← hobj]; exact hbig
    have h2 : utf8Len (stringify (truncationMarker body))
        ≤ 4 * (stringify (truncationMarker body)).length :=
      utf8Len_le_four_mul _
    rw [← heq] at h1
    omega
  · exact sanitizeJsonData_keeps _ rfl (by omega)

/-- C7 witness. The amended theorem applied to the concrete
100001-byte body of the counterexample. -/
theorem c7_oversized_body_truncation_witness :
    utf8Len (bodyToStr (.str (List.replicate 100001 'a'))) > 100000 ∧
    sanitizeJsonData (truncationMarker (.str (List.replicate 100001 'a')))
      = truncationMarker (.str (List.replicate 100001 'a')) := by
  have hbig : utf8Len (bodyToStr (.str (List.replicate 100001 'a'))) > 100000 := by
    show utf8Len (List.replicate 100001 'a') > 100000
    rw [utf8Len_replicate]
    decide
  have hrepr : utf8Len (bodyToStr (.str (List.replicate 100001 'a'))) < 10 ^ 15 := by
    show utf8Len (List.replicate 100001 'a') < 10 ^ 15
    rw [utf8Len_replicate]
    decide
  exact ⟨hbig,
    (c7_oversized_body_truncation (.str (List.replicate 100001 'a')) hbig hrepr).2.2.2.1⟩

end Modr
